import Mathlib

/-!
# VirtualService reconciler (`pkg/controller/virtualservice.go`)

A shallow embedding of the VirtualService reconciliation pass of the App Mesh
controller.  Go pointers that may be nil are `Option`s, a nil slice whose
nil-ness is tested by the code is an `Option (List _)`, and every call to the
remote control plane or to the object store is answered by an oracle that sees
the history of the calls made so far; each call is appended to that history
together with the error it returned.
-/

set_option autoImplicit false

namespace AppMesh

/-! ## Go values -/

/-- A Go `error` value: its message, and whether `IsNotFound` holds of it. -/
structure GoError where
  Msg : String
  NotFound : Bool
deriving DecidableEq, Repr

/-- The error built by `fmt.Errorf`: a plain message, never a not-found error. -/
def Errorf (msg : String) : GoError := ⟨msg, false⟩

/-- `aws.IsAWSErrNotFound`. -/
def IsAWSErrNotFound (e : GoError) : Bool := e.NotFound

/-- `errors.IsNotFound` of `k8s.io/apimachinery`. -/
def IsNotFound (e : GoError) : Bool := e.NotFound

/-- What a Go function returning `(α, error)` or `error` does: return normally,
return an error, or stop with a run-time fault (nil pointer dereference). -/
inductive Res (α : Type) where
  | ok (a : α)
  | err (e : GoError)
  | fault
deriving DecidableEq, Repr

/-- `metav1.Time`, as a count of clock ticks. -/
abbrev Time := Nat

/-! ## `github.com/deckarep/golang-set` -/

/-- A `set.Set`: its elements, held without repetition. -/
structure GoSet (α : Type) where
  elems : List α
deriving Repr

namespace GoSet
variable {α : Type} [DecidableEq α]

/-- `set.NewSet()`. -/
def NewSet : GoSet α := ⟨[]⟩

/-- `s.Add(a)`. -/
def Add (s : GoSet α) (a : α) : GoSet α :=
  if a ∈ s.elems then s else ⟨s.elems ++ [a]⟩

/-- `s.Contains(a)`. -/
def Contains (s : GoSet α) (a : α) : Bool := decide (a ∈ s.elems)

/-- `s.Cardinality()`. -/
def Cardinality (s : GoSet α) : Nat := s.elems.length

/-- `s.Equal(t)`: same cardinality and every element of `s` is in `t`. -/
def Equal (s t : GoSet α) : Bool :=
  if s.Cardinality ≠ t.Cardinality then false
  else s.elems.all (fun a => t.Contains a)

/-- The set obtained by adding the elements of a list one by one. -/
def addAll (s : GoSet α) : List α → GoSet α
  | [] => s
  | a :: as => addAll (s.Add a) as

end GoSet

/-! ## The custom resources (`appmeshv1alpha1`) -/

/-- Modelled from the spec: a weighted target is a node reference and an integer
weight. -/
structure WeightedTarget where
  VirtualNodeName : String
  Weight : Int
deriving DecidableEq, Repr

/-- Modelled from the spec: the path-prefix match of a route
(`spec.routes[].match.prefix`). -/
structure HttpRouteMatch where
  Prefix : String
deriving DecidableEq, Repr

/-- Modelled from the spec: the action of a route
(`spec.routes[].action.weightedTargets`); `WeightedTargets` is a slice, `none`
when nil. -/
structure HttpRouteAction where
  WeightedTargets : Option (List WeightedTarget)
deriving DecidableEq, Repr

/-- Modelled from the spec: the HTTP part of a desired route, read by the code as
`Http.Match` and `Http.Action`. -/
structure HttpRoute where
  Match : HttpRouteMatch
  Action : HttpRouteAction
deriving DecidableEq, Repr

/-- Modelled from the spec: a desired route, with its name. -/
structure Route where
  Name : String
  Http : HttpRoute
deriving DecidableEq, Repr

/-- Modelled from the spec: the router a VirtualService names
(`spec.virtualRouter.name`). -/
structure VirtualRouter where
  Name : String
deriving DecidableEq, Repr

/-- Modelled from the spec: the spec of a VirtualService.  `VirtualRouter` is a
pointer (`none` when nil); `Routes` is a slice that the code only ranges over,
so nil is `[]`. -/
structure VirtualServiceSpec where
  MeshName : String
  VirtualRouter : Option VirtualRouter
  Routes : List Route
deriving DecidableEq, Repr

/-- The type of a condition, a Go string type. -/
abbrev VirtualServiceConditionType := String

/-- `api.ConditionStatus`, a Go string type. -/
abbrev ConditionStatus := String

/-- Modelled from the spec: the three condition types. -/
def VirtualServiceActive : VirtualServiceConditionType := "VirtualServiceActive"
def VirtualRouterActive : VirtualServiceConditionType := "VirtualRouterActive"
def RoutesActive : VirtualServiceConditionType := "RoutesActive"

def ConditionTrue : ConditionStatus := "True"
def ConditionFalse : ConditionStatus := "False"

/-- Modelled from the spec: a status condition
(`status.conditions[].{type,status,lastTransitionTime}`); `LastTransitionTime`
is a pointer. -/
structure VirtualServiceCondition where
  Type_ : VirtualServiceConditionType
  Status : ConditionStatus
  LastTransitionTime : Option Time
deriving DecidableEq, Repr

/-- Modelled from the spec: the status of a VirtualService, its conditions. -/
structure VirtualServiceStatus where
  Conditions : List VirtualServiceCondition
deriving DecidableEq, Repr

/-- Modelled from the spec: the VirtualService resource, with the metadata the
reconciler reads and writes. -/
structure VirtualService where
  Name : String
  Namespace : String
  DeletionTimestamp : Option Time
  Finalizers : List String
  Spec : VirtualServiceSpec
  Status : VirtualServiceStatus
deriving DecidableEq, Repr

/-- Modelled from the spec: the `Mesh` resource, which this file only reads: its
`deletionTimestamp` and the "active" predicate derived from its status. -/
structure Mesh where
  Name : String
  Namespace : String
  DeletionTimestamp : Option Time
  Active : Bool
deriving DecidableEq, Repr

/-! ## The remote objects (`pkg/aws`) -/

namespace appmesh

def VirtualServiceStatusCodeActive : String := "ACTIVE"
def VirtualServiceStatusCodeInactive : String := "INACTIVE"
def VirtualServiceStatusCodeDeleted : String := "DELETED"
def VirtualRouterStatusCodeActive : String := "ACTIVE"
def VirtualRouterStatusCodeInactive : String := "INACTIVE"
def VirtualRouterStatusCodeDeleted : String := "DELETED"
def RouteStatusCodeActive : String := "ACTIVE"

end appmesh

namespace aws

/-- Modelled from the spec: a remote route exposes its name, its path prefix,
its weighted targets and its lifecycle status. -/
structure Route where
  Name : String
  Prefix : String
  WeightedTargets : List WeightedTarget
  Status : String
deriving DecidableEq, Repr

/-- Modelled from the spec: `WeightedTargetSet` collects the weighted targets of
the remote route into a set. -/
def Route.WeightedTargetSet (r : Route) : GoSet WeightedTarget :=
  GoSet.addAll GoSet.NewSet r.WeightedTargets

abbrev Routes := List Route

/-- Modelled from the spec: `RouteNamesSet` is the set of the names of the
remote routes. -/
def Routes.RouteNamesSet (rs : Routes) : GoSet String :=
  GoSet.addAll GoSet.NewSet (rs.map Route.Name)

/-- Modelled from the spec: `RouteByName` is the remote route of the given name
(the zero route when there is none). -/
def Routes.RouteByName (rs : Routes) (name : String) : Route :=
  match rs.find? (fun r => decide (r.Name = name)) with
  | some r => r
  | none => ⟨"", "", [], ""⟩

/-- Modelled from the spec: a remote virtual router exposes its name and its
lifecycle status. -/
structure VirtualRouter where
  Name : String
  Status : String
deriving DecidableEq, Repr

/-- Modelled from the spec: a remote virtual service exposes its lifecycle
status and the name of the router it is bound to. -/
structure VirtualService where
  Status : String
  VirtualRouterName : String
deriving DecidableEq, Repr

end aws

/-! ## Calls and their history -/

/-- A call to the remote control plane (`c.cloud`) or a write to the object
store (`c.meshclientset`). -/
inductive Call where
  | GetVirtualRouter (name meshName : String)
  | CreateVirtualRouter (router : VirtualRouter) (meshName : String)
  | GetRoutesForVirtualRouter (routerName meshName : String)
  | CreateRoute (route : Route) (routerName meshName : String)
  | UpdateRoute (route : Route) (routerName meshName : String)
  | DeleteRoute (name routerName meshName : String)
  | GetVirtualService (name meshName : String)
  | CreateVirtualService (vservice : VirtualService)
  | UpdateVirtualService (vservice : VirtualService)
  | DeleteVirtualService (name meshName : String)
  | DeleteVirtualRouter (name meshName : String)
  | Update (vservice : VirtualService)
  | UpdateStatus (vservice : VirtualService)
deriving DecidableEq, Repr

/-- A call that was made, with the error it returned (`none` for success). -/
structure Event where
  call : Call
  error : Option GoError
deriving DecidableEq, Repr

abbrev Trace := List Event

/-- The error of a call's answer. -/
def errorOf {α : Type} : Except GoError α → Option GoError
  | .ok _ => none
  | .error e => some e

/-- Append a call and its answer to the history. -/
def record {α : Type} (tr : Trace) (c : Call) (r : Except GoError α) : Trace :=
  tr ++ [⟨c, errorOf r⟩]

/-- The collaborators of the controller.  The listers read a local cache; each
remote call and each object-store write is answered from the history so far. -/
structure Env where
  SplitMetaNamespaceKey : String → Except GoError (String × String)
  virtualServiceLister : String → String → Except GoError VirtualService
  meshLister : String → String → Except GoError Mesh
  parseMeshName : String → String → String × String
  virtualServiceDeletionFinalizerName : String
  Now : Trace → Time
  GetVirtualRouter : Trace → String → String → Except GoError aws.VirtualRouter
  CreateVirtualRouter : Trace → VirtualRouter → String → Except GoError aws.VirtualRouter
  GetRoutesForVirtualRouter : Trace → String → String → Except GoError aws.Routes
  CreateRoute : Trace → Route → String → String → Except GoError Unit
  UpdateRoute : Trace → Route → String → String → Except GoError Unit
  DeleteRoute : Trace → String → String → String → Except GoError Unit
  GetVirtualService : Trace → String → String → Except GoError aws.VirtualService
  CreateVirtualService : Trace → VirtualService → Except GoError aws.VirtualService
  UpdateVirtualService : Trace → VirtualService → Except GoError aws.VirtualService
  DeleteVirtualService : Trace → String → String → Except GoError Unit
  DeleteVirtualRouter : Trace → String → String → Except GoError Unit
  Update : Trace → VirtualService → Except GoError VirtualService
  UpdateStatus : Trace → VirtualService → Except GoError VirtualService

/-! ## The Route Differ -/

/-- `routeNeedsUpdate` (virtualservice.go:312). -/
def routeNeedsUpdate (desired : Route) (target : aws.Route) : Bool :=
  match desired.Http.Action.WeightedTargets with
  | some targets =>
    let desiredSet := GoSet.addAll GoSet.NewSet targets
    let currSet := target.WeightedTargetSet
    if !desiredSet.Equal currSet then true
    else if desired.Http.Match.Prefix ≠ target.Prefix then true
    else false
  | none =>
    if desired.Http.Match.Prefix ≠ target.Prefix then true
    else false

/-- The first loop of `updateRoutes` (virtualservice.go:269): over the desired
routes, carrying the history and `routeNamesWithErrors`. -/
def updateRoutes.desiredLoop (env : Env) (meshName routerName : String)
    (existing : aws.Routes) (existingNames : GoSet String) :
    List Route → Trace → List String → Trace × List String
  | [], tr, routeNamesWithErrors => (tr, routeNamesWithErrors)
  | d :: ds, tr, routeNamesWithErrors =>
    if existingNames.Contains d.Name then
      let e := existing.RouteByName d.Name
      if routeNeedsUpdate d e then
        let r := env.UpdateRoute tr d routerName meshName
        let tr1 := record tr (.UpdateRoute d routerName meshName) r
        match r with
        | .error _ =>
          desiredLoop env meshName routerName existing existingNames ds tr1
            (routeNamesWithErrors ++ [d.Name])
        | .ok _ =>
          desiredLoop env meshName routerName existing existingNames ds tr1 routeNamesWithErrors
      else
        desiredLoop env meshName routerName existing existingNames ds tr routeNamesWithErrors
    else
      let r := env.CreateRoute tr d routerName meshName
      let tr1 := record tr (.CreateRoute d routerName meshName) r
      match r with
      | .error _ =>
        desiredLoop env meshName routerName existing existingNames ds tr1
          (routeNamesWithErrors ++ [d.Name])
      | .ok _ =>
        desiredLoop env meshName routerName existing existingNames ds tr1 routeNamesWithErrors

/-- The second loop of `updateRoutes` (virtualservice.go:288): over the existing
routes. -/
def updateRoutes.existingLoop (env : Env) (meshName routerName : String)
    (desiredNames : GoSet String) :
    List aws.Route → Trace → List String → Trace × List String
  | [], tr, routeNamesWithErrors => (tr, routeNamesWithErrors)
  | ex :: exs, tr, routeNamesWithErrors =>
    if !desiredNames.Contains ex.Name then
      let r := env.DeleteRoute tr ex.Name routerName meshName
      let tr1 := record tr (.DeleteRoute ex.Name routerName meshName) r
      match r with
      | .error _ =>
        existingLoop env meshName routerName desiredNames exs tr1
          (routeNamesWithErrors ++ [ex.Name])
      | .ok _ =>
        existingLoop env meshName routerName desiredNames exs tr1 routeNamesWithErrors
    else
      existingLoop env meshName routerName desiredNames exs tr routeNamesWithErrors

/-- The two loops of `updateRoutes`, yielding the history and
`routeNamesWithErrors` as they stand at virtualservice.go:297. -/
def updateRoutes.loops (env : Env) (tr : Trace) (meshName routerName : String)
    (desired : List Route) (existing : aws.Routes) : Trace × List String :=
  let existingNames := existing.RouteNamesSet
  let desiredNames := GoSet.addAll GoSet.NewSet (desired.map Route.Name)
  let s := updateRoutes.desiredLoop env meshName routerName existing existingNames desired tr []
  updateRoutes.existingLoop env meshName routerName desiredNames existing s.1 s.2

/-- `updateRoutes` (virtualservice.go:260). -/
def updateRoutes (env : Env) (tr : Trace) (meshName routerName : String)
    (desired : List Route) (existing : aws.Routes) : Trace × Option GoError :=
  let s := updateRoutes.loops env tr meshName routerName desired existing
  if s.2.length > 0 then
    (s.1, some (Errorf ("error updating routes: " ++ " ".intercalate s.2)))
  else
    (s.1, none)

/-! ## Finalizers -/

/-- `t.IsZero()` on a `*metav1.Time`: nil, or the zero instant. -/
def IsZero : Option Time → Bool
  | none => true
  | some t => t == 0

/-- Modelled from the spec: `containsFinalizer` is `has(obj, token)`. -/
def containsFinalizer (vservice : VirtualService) (finalizer : String) : Bool :=
  decide (finalizer ∈ vservice.Finalizers)

/-- Modelled from the spec: `addFinalizer` is `add(obj, token)`, a no-op if the
token is present; it reports no error. -/
def addFinalizer (vservice : VirtualService) (finalizer : String) :
    VirtualService × Option GoError :=
  if finalizer ∈ vservice.Finalizers then (vservice, none)
  else ({ vservice with Finalizers := vservice.Finalizers ++ [finalizer] }, none)

/-- Modelled from the spec: `removeFinalizer` is `remove(obj, token)`, a no-op if
the token is absent; it reports no error. -/
def removeFinalizer (vservice : VirtualService) (finalizer : String) :
    VirtualService × Option GoError :=
  ({ vservice with Finalizers := vservice.Finalizers.filter (fun f => decide (f ≠ finalizer)) },
    none)

/-! ## The Condition Tracker -/

/-- `updateVServiceResource` (virtualservice.go:153). -/
def updateVServiceResource (env : Env) (tr : Trace) (vservice : VirtualService) :
    Trace × Option GoError :=
  let r := env.Update tr vservice
  (record tr (.Update vservice) r, errorOf r)

/-- `getVServiceCondition` (virtualservice.go:217). -/
def getVServiceCondition (conditionType : VirtualServiceConditionType)
    (status : VirtualServiceStatus) : VirtualServiceCondition :=
  match status.Conditions.find? (fun condition => decide (condition.Type_ = conditionType)) with
  | some condition => condition
  | none => ⟨"", "", none⟩

/-- `updateVServiceCondition` (virtualservice.go:194).  The result holds the
history, the object `vservice` points to after the call, and the returned pair
`(*VirtualService, error)`. -/
def updateVServiceCondition (env : Env) (tr : Trace) (vservice : VirtualService)
    (conditionType : VirtualServiceConditionType) (status : ConditionStatus) :
    Trace × VirtualService × Except GoError (Option VirtualService) :=
  let now := env.Now tr
  let condition := getVServiceCondition conditionType vservice.Status
  if condition = (⟨"", "", none⟩ : VirtualServiceCondition) then
    let newCondition : VirtualServiceCondition := ⟨conditionType, status, some now⟩
    let vservice1 : VirtualService :=
      { vservice with Status := ⟨vservice.Status.Conditions ++ [newCondition]⟩ }
    let r := env.UpdateStatus tr vservice1
    (record tr (.UpdateStatus vservice1) r, vservice1, r.map some)
  else if condition.Status = status then
    (tr, vservice, .ok none)
  else
    -- `condition` is the copy returned by `getVServiceCondition`: the two
    -- assignments change the local variable, not the element of the slice
    let _condition : VirtualServiceCondition :=
      { condition with Status := status, LastTransitionTime := some now }
    let r := env.UpdateStatus tr vservice
    (record tr (.UpdateStatus vservice) r, vservice, r.map some)

/-- `updateVServiceActive` (virtualservice.go:182). -/
def updateVServiceActive (env : Env) (tr : Trace) (vservice : VirtualService)
    (status : ConditionStatus) :=
  updateVServiceCondition env tr vservice VirtualServiceActive status

/-- `updateVRouterActive` (virtualservice.go:186). -/
def updateVRouterActive (env : Env) (tr : Trace) (vservice : VirtualService)
    (status : ConditionStatus) :=
  updateVServiceCondition env tr vservice VirtualRouterActive status

/-- `updateRoutesActive` (virtualservice.go:190). -/
def updateRoutesActive (env : Env) (tr : Trace) (vservice : VirtualService)
    (status : ConditionStatus) :=
  updateVServiceCondition env tr vservice RoutesActive status

/-- `updateVServiceStatus` (virtualservice.go:158). -/
def updateVServiceStatus (env : Env) (tr : Trace) (vservice : VirtualService)
    (target : aws.VirtualService) :
    Trace × VirtualService × Except GoError (Option VirtualService) :=
  if target.Status = appmesh.VirtualServiceStatusCodeActive then
    updateVServiceActive env tr vservice ConditionTrue
  else if target.Status = appmesh.VirtualServiceStatusCodeInactive then
    updateVServiceActive env tr vservice ConditionFalse
  else if target.Status = appmesh.VirtualServiceStatusCodeDeleted then
    updateVServiceActive env tr vservice ConditionFalse
  else (tr, vservice, .ok none)

/-- `updateVRouterStatus` (virtualservice.go:170). -/
def updateVRouterStatus (env : Env) (tr : Trace) (vservice : VirtualService)
    (target : aws.VirtualRouter) :
    Trace × VirtualService × Except GoError (Option VirtualService) :=
  if target.Status = appmesh.VirtualRouterStatusCodeActive then
    updateVRouterActive env tr vservice ConditionTrue
  else if target.Status = appmesh.VirtualRouterStatusCodeInactive then
    updateVRouterActive env tr vservice ConditionFalse
  else if target.Status = appmesh.VirtualRouterStatusCodeDeleted then
    updateVRouterActive env tr vservice ConditionFalse
  else (tr, vservice, .ok none)

/-! ## Small helpers of the reconciler -/

/-- `getVirtualRouter` (virtualservice.go:227). -/
def getVirtualRouter (vservice : VirtualService) : VirtualRouter :=
  match vservice.Spec.VirtualRouter with
  | some virtualRouter => virtualRouter
  | none => ⟨vservice.Name⟩

/-- `getRoutes` (virtualservice.go:236). -/
def getRoutes (vservice : VirtualService) : List Route :=
  vservice.Spec.Routes

/-- `vserviceNeedsUpdate` (virtualservice.go:245). -/
def vserviceNeedsUpdate (desired : VirtualService) (target : aws.VirtualService) : Bool :=
  match desired.Spec.VirtualRouter with
  | some virtualRouter =>
    if virtualRouter.Name ≠ target.VirtualRouterName then true else false
  | none =>
    if target.VirtualRouterName ≠ "" then true else false

/-- `allRoutesActive` (virtualservice.go:303). -/
def allRoutesActive : aws.Routes → Bool
  | [] => true
  | r :: rs => if r.Status ≠ appmesh.RouteStatusCodeActive then false else allRoutesActive rs

/-- Modelled from the spec: `checkMeshActive` is the "active" predicate of the
Mesh; it dereferences its argument, so a nil Mesh is a run-time fault. -/
def checkMeshActive : Option Mesh → Option Bool
  | some mesh => some mesh.Active
  | none => none

/-! ## Deletion -/

/-- The loop of `deleteVServiceResources` over `vservice.Spec.Routes`
(virtualservice.go:375).  Evaluating `vservice.Spec.VirtualRouter.Name` faults
when the pointer is nil. -/
def deleteVServiceResources.routes (env : Env) (vservice : VirtualService) (meshName : String) :
    List Route → Trace → Trace × Res Unit
  | [], tr => (tr, .ok ())
  | r :: rs, tr =>
    match vservice.Spec.VirtualRouter with
    | none => (tr, .fault)
    | some virtualRouter =>
      let res := env.DeleteRoute tr r.Name virtualRouter.Name meshName
      let tr1 := record tr (.DeleteRoute r.Name virtualRouter.Name meshName) res
      match res with
      | .error err =>
        if !IsAWSErrNotFound err then
          (tr1, .err (Errorf ("failed to clean up route " ++ r.Name ++ " for virtual service "
            ++ vservice.Name ++ " during deletion: " ++ err.Msg)))
        else deleteVServiceResources.routes env vservice meshName rs tr1
      | .ok _ => deleteVServiceResources.routes env vservice meshName rs tr1

/-- The end of `deleteVServiceResources`: the virtual router
(virtualservice.go:392). -/
def deleteVServiceResources.router (env : Env) (vservice : VirtualService) (meshName : String)
    (tr : Trace) : Trace × Res Unit :=
  match vservice.Spec.VirtualRouter with
  | none => (tr, .fault)
  | some virtualRouter =>
    let res := env.DeleteVirtualRouter tr virtualRouter.Name meshName
    let tr1 := record tr (.DeleteVirtualRouter virtualRouter.Name meshName) res
    match res with
    | .error err =>
      if !IsAWSErrNotFound err then
        (tr1, .err (Errorf ("failed to clean up virtual router " ++ virtualRouter.Name
          ++ " for virtual service " ++ vservice.Name ++ " during deletion: " ++ err.Msg)))
      else (tr1, .ok ())
    | .ok _ => (tr1, .ok ())

/-- The middle of `deleteVServiceResources`: the virtual service
(virtualservice.go:385), then the virtual router. -/
def deleteVServiceResources.service (env : Env) (vservice : VirtualService) (meshName : String)
    (tr : Trace) : Trace × Res Unit :=
  let res := env.DeleteVirtualService tr vservice.Name meshName
  let tr1 := record tr (.DeleteVirtualService vservice.Name meshName) res
  match res with
  | .error err =>
    if !IsAWSErrNotFound err then
      (tr1, .err (Errorf ("failed to clean up virtual service " ++ vservice.Name
        ++ " during deletion: " ++ err.Msg)))
    else deleteVServiceResources.router env vservice meshName tr1
  | .ok _ => deleteVServiceResources.router env vservice meshName tr1

/-- `deleteVServiceResources` (virtualservice.go:372). -/
def deleteVServiceResources (env : Env) (tr : Trace) (vservice : VirtualService) :
    Trace × Res Unit :=
  let meshName := (env.parseMeshName vservice.Spec.MeshName vservice.Namespace).1
  match deleteVServiceResources.routes env vservice meshName vservice.Spec.Routes tr with
  | (tr1, .ok _) => deleteVServiceResources.service env vservice meshName tr1
  | (tr1, .err e) => (tr1, .err e)
  | (tr1, .fault) => (tr1, .fault)

/-- `handleVServiceDelete` (virtualservice.go:329).  The result holds the
history, the object `vservice` points to after the call, and the returned
error. -/
def handleVServiceDelete (env : Env) (tr : Trace) (vservice : VirtualService) :
    Trace × VirtualService × Res Unit :=
  if containsFinalizer vservice env.virtualServiceDeletionFinalizerName then
    match deleteVServiceResources env tr vservice with
    | (tr1, .err err) => (tr1, vservice, .err err)
    | (tr1, .fault) => (tr1, vservice, .fault)
    | (tr1, .ok _) =>
      match removeFinalizer vservice env.virtualServiceDeletionFinalizerName with
      | (vservice1, some err) =>
        (tr1, vservice1, .err (Errorf ("error removing finalizer "
          ++ env.virtualServiceDeletionFinalizerName ++ " to virtual service " ++ vservice.Name
          ++ " during deletion: " ++ err.Msg)))
      | (vservice1, none) =>
        match updateVServiceResource env tr1 vservice1 with
        | (tr2, some err) =>
          (tr2, vservice1, .err (Errorf ("error removing finalizer "
            ++ env.virtualServiceDeletionFinalizerName ++ " to virtual service " ++ vservice.Name
            ++ " during deletion: " ++ err.Msg)))
        | (tr2, none) => (tr2, vservice1, .ok ())
  else (tr, vservice, .ok ())

/-- `handleVServiceMeshDeleting` (virtualservice.go:346): the history and
`processVService`, or `none` for a run-time fault. -/
def handleVServiceMeshDeleting (env : Env) (tr : Trace) (vservice : VirtualService) :
    Trace × Option Bool :=
  let meshName := (env.parseMeshName vservice.Spec.MeshName vservice.Namespace).1
  let meshNamespace := (env.parseMeshName vservice.Spec.MeshName vservice.Namespace).2
  match env.meshLister meshNamespace meshName with
  | .error _ => (tr, some false)
  | .ok mesh =>
    if !IsZero mesh.DeletionTimestamp then
      match deleteVServiceResources env tr vservice with
      | (tr1, .fault) => (tr1, none)
      | (tr1, .err _) => (tr1, some false)
      | (tr1, .ok _) => (tr1, some false)
    else (tr, some true)


/-! ## The reconciler -/

/-- The end of `handleVService` (virtualservice.go:122–150): ensure the remote
virtual service and upsert `VirtualServiceActive`. -/
def handleVService.serviceStep (env : Env) (tr : Trace) (vservice : VirtualService)
    (meshName : String) : Trace × Res Unit :=
  let finish (tr : Trace) (targetService : aws.VirtualService) : Trace × Res Unit :=
    match updateVServiceStatus env tr vservice targetService with
    | (tr1, _, .error err) =>
      (tr1, .err (Errorf ("error updating virtual service status: " ++ err.Msg)))
    | (tr1, _, .ok _) => (tr1, .ok ())
  let r := env.GetVirtualService tr vservice.Name meshName
  let tr1 := record tr (.GetVirtualService vservice.Name meshName) r
  match r with
  | .error err =>
    if IsAWSErrNotFound err then
      let r2 := env.CreateVirtualService tr1 vservice
      let tr2 := record tr1 (.CreateVirtualService vservice) r2
      match r2 with
      | .error err => (tr2, .err (Errorf ("error creating virtual service: " ++ err.Msg)))
      | .ok targetService => finish tr2 targetService
    else (tr1, .err (Errorf ("error describing virtual service: " ++ err.Msg)))
  | .ok targetService =>
    if vserviceNeedsUpdate vservice targetService then
      let r2 := env.UpdateVirtualService tr1 vservice
      let tr2 := record tr1 (.UpdateVirtualService vservice) r2
      match r2 with
      | .error err => (tr2, .err (Errorf ("error updating virtual service: " ++ err.Msg)))
      | .ok targetService => finish tr2 targetService
    else finish tr1 targetService

/-- The middle of `handleVService` (virtualservice.go:96–120): diff the routes
and upsert `RoutesActive`; `vservice` is the pointer left by the router step,
nil (`none`) included, which `getRoutes` dereferences. -/
def handleVService.routesStep (env : Env) (tr : Trace) (vservice : Option VirtualService)
    (meshName : String) (virtualRouter : VirtualRouter) : Trace × Res Unit :=
  match vservice with
  | none => (tr, .fault)
  | some vservice =>
    let desiredRoutes := getRoutes vservice
    let r := env.GetRoutesForVirtualRouter tr virtualRouter.Name meshName
    let tr1 := record tr (.GetRoutesForVirtualRouter virtualRouter.Name meshName) r
    match r with
    | .error err =>
      (tr1, .err (Errorf ("error getting routes for virtual service " ++ vservice.Name ++ ": "
        ++ err.Msg)))
    | .ok existingRoutes =>
      match updateRoutes env tr1 meshName virtualRouter.Name desiredRoutes existingRoutes with
      | (tr2, some err) =>
        (tr2, .err (Errorf ("error updating routes for virtual service " ++ vservice.Name ++ ": "
          ++ err.Msg)))
      | (tr2, none) =>
        let r3 := env.GetRoutesForVirtualRouter tr2 virtualRouter.Name meshName
        let tr3 := record tr2 (.GetRoutesForVirtualRouter virtualRouter.Name meshName) r3
        match r3 with
        | .error _ => handleVService.serviceStep env tr3 vservice meshName
        | .ok routes =>
          let status := if allRoutesActive routes then ConditionTrue else ConditionFalse
          match updateRoutesActive env tr3 vservice status with
          | (tr4, _, .error err) =>
            (tr4, .err (Errorf ("error updating routes status: " ++ err.Msg)))
          | (tr4, _, .ok (some updated)) => handleVService.serviceStep env tr4 updated meshName
          | (tr4, vservice1, .ok none) => handleVService.serviceStep env tr4 vservice1 meshName

/-- The router step of `handleVService` (virtualservice.go:79–94): create the
virtual router if it does not exist and, in that branch only, assign to
`vservice` what `updateVRouterStatus` returns. -/
def handleVService.routerStep (env : Env) (tr : Trace) (vservice : VirtualService)
    (meshName : String) : Trace × Res Unit :=
  let virtualRouter := getVirtualRouter vservice
  let r := env.GetVirtualRouter tr virtualRouter.Name meshName
  let tr1 := record tr (.GetVirtualRouter virtualRouter.Name meshName) r
  match r with
  | .error err =>
    if IsAWSErrNotFound err then
      let r2 := env.CreateVirtualRouter tr1 virtualRouter meshName
      let tr2 := record tr1 (.CreateVirtualRouter virtualRouter meshName) r2
      match r2 with
      | .error err => (tr2, .err (Errorf ("error creating virtual router: " ++ err.Msg)))
      | .ok targetRouter =>
        match updateVRouterStatus env tr2 vservice targetRouter with
        | (tr3, _, .error err) =>
          (tr3, .err (Errorf ("error updating virtual service status: " ++ err.Msg)))
        | (tr3, _, .ok returned) =>
          handleVService.routesStep env tr3 returned meshName virtualRouter
    else (tr1, .err (Errorf ("error describing virtual router: " ++ err.Msg)))
  | .ok _ => handleVService.routesStep env tr1 (some vservice) meshName virtualRouter

/-- The mesh step of `handleVService` (virtualservice.go:55–77): the Mesh
Lifecycle Gate, the `MeshName` check and the lookup of the Mesh. -/
def handleVService.meshStep (env : Env) (tr : Trace) (vservice : VirtualService)
    (name : String) : Trace × Res Unit :=
  match handleVServiceMeshDeleting env tr vservice with
  | (tr1, none) => (tr1, .fault)
  | (tr1, some false) => (tr1, .ok ())
  | (tr1, some true) =>
    if vservice.Spec.MeshName = "" then
      (tr1, .err (Errorf "'MeshName' is a required field"))
    else
      let meshName := (env.parseMeshName vservice.Spec.MeshName vservice.Namespace).1
      let meshNamespace := (env.parseMeshName vservice.Spec.MeshName vservice.Namespace).2
      let vservice1 : VirtualService :=
        { vservice with Spec := { vservice.Spec with MeshName := meshName } }
      let found := env.meshLister meshNamespace meshName
      let notFound : Bool := match found with
        | .error err => IsNotFound err
        | .ok _ => false
      if notFound then
        (tr1, .err (Errorf ("mesh " ++ meshName ++ " for virtual service " ++ name
          ++ " does not exist")))
      else
        let mesh : Option Mesh := match found with
          | .error _ => none
          | .ok mesh => some mesh
        match checkMeshActive mesh with
        | none => (tr1, .fault)
        | some false =>
          (tr1, .err (Errorf ("mesh " ++ meshName ++ " must be active for virtual service "
            ++ name)))
        | some true => handleVService.routerStep env tr1 vservice1 meshName

/-- `handleVService` (virtualservice.go:19). -/
def handleVService (env : Env) (tr : Trace) (key : String) : Trace × Res Unit :=
  match env.SplitMetaNamespaceKey key with
  | .error err => (tr, .err err)
  | .ok (ns, name) =>
    match env.virtualServiceLister ns name with
    | .error err => if IsNotFound err then (tr, .ok ()) else (tr, .err err)
    | .ok shared =>
      let vservice := shared
      if !IsZero vservice.DeletionTimestamp then
        let r := handleVServiceDelete env tr vservice
        (r.1, r.2.2)
      else if !containsFinalizer vservice env.virtualServiceDeletionFinalizerName then
        match addFinalizer vservice env.virtualServiceDeletionFinalizerName with
        | (_, some err) =>
          (tr, .err (Errorf ("error adding finalizer " ++ env.virtualServiceDeletionFinalizerName
            ++ " to virtual service " ++ vservice.Name ++ ": " ++ err.Msg)))
        | (vservice1, none) =>
          match updateVServiceResource env tr vservice1 with
          | (tr1, some err) =>
            (tr1, .err (Errorf ("error adding finalizer "
              ++ env.virtualServiceDeletionFinalizerName ++ " to virtual service "
              ++ vservice1.Name ++ ": " ++ err.Msg)))
          | (tr1, none) => handleVService.meshStep env tr1 vservice1 name
      else handleVService.meshStep env tr vservice name


/-! ## What the Route Differ is to do, in the words of the spec -/

/-- The kind of a remote route operation. -/
inductive RouteOp where
  | create
  | update
  | delete
deriving DecidableEq, Repr

/-- The route operation an event stands for, with the name of its route. -/
def Event.routeOp (ev : Event) : Option (RouteOp × String) :=
  match ev.call with
  | .CreateRoute r _ _ => some (.create, r.Name)
  | .UpdateRoute r _ _ => some (.update, r.Name)
  | .DeleteRoute n _ _ => some (.delete, n)
  | _ => none

/-- The names of the routes whose operation returned an error. -/
def failedNames (evs : List Event) : List String :=
  evs.filterMap (fun ev => if ev.error.isSome then ev.routeOp.map Prod.snd else none)

/-- The operation the spec asks for a desired route: a create when its name
does not exist remotely, an update when it does and the route differs. -/
def plannedForDesired (existing : aws.Routes) (d : Route) : Option (RouteOp × String) :=
  if d.Name ∈ existing.map aws.Route.Name then
    if routeNeedsUpdate d (existing.RouteByName d.Name) then some (.update, d.Name) else none
  else some (.create, d.Name)

/-- The operation the spec asks for a remote route: a delete when its name is
absent from the desired set. -/
def plannedForExisting (desired : List Route) (ex : aws.Route) : Option (RouteOp × String) :=
  if ex.Name ∈ desired.map Route.Name then none else some (.delete, ex.Name)

/-- The operations of the symmetric-difference diff of the spec (§4.4). -/
def plannedOps (desired : List Route) (existing : aws.Routes) : List (RouteOp × String) :=
  desired.filterMap (plannedForDesired existing) ++
    existing.filterMap (plannedForExisting desired)

/-- The operations of a list that concern the route of a given name. -/
def opsOn (n : String) (ops : List (RouteOp × String)) : List (RouteOp × String) :=
  ops.filter (fun o => decide (o.2 = n))


/-! ## Vocabulary of the statements -/

/-- A remote cleanup call: a route delete, the virtual service delete or the
virtual router delete. -/
def Call.isCleanup : Call → Bool
  | .DeleteRoute _ _ _ => true
  | .DeleteVirtualService _ _ => true
  | .DeleteVirtualRouter _ _ => true
  | _ => false

/-- A write of the object to the object store (`Update`). -/
def Call.isUpdate : Call → Bool
  | .Update _ => true
  | _ => false

/-- The conditions an event persists, when it is a status update. -/
def Event.persistedConditions (ev : Event) : Option (List VirtualServiceCondition) :=
  match ev.call with
  | .UpdateStatus vservice => some vservice.Status.Conditions
  | _ => none

/-- The call returned an error that is not a not-found error. -/
def Event.failed (ev : Event) : Bool :=
  match ev.error with
  | some err => !IsAWSErrNotFound err
  | none => false

/-- The cleanup calls of a VirtualService bound to router `virtualRouter`, in
the order of the deletion path of the spec (§4.2): each declared route, then the
virtual service, then the virtual router. -/
def cleanupCalls (env : Env) (vservice : VirtualService) (virtualRouter : VirtualRouter) :
    List Call :=
  let meshName := (env.parseMeshName vservice.Spec.MeshName vservice.Namespace).1
  vservice.Spec.Routes.map (fun r => Call.DeleteRoute r.Name virtualRouter.Name meshName)
    ++ [Call.DeleteVirtualService vservice.Name meshName,
        Call.DeleteVirtualRouter virtualRouter.Name meshName]

/-- What a run of the cleanup leaves: only cleanup calls; when it returns an
error, the last call failed with an error that is not a not-found error, the
returned message ends with that error, and no earlier call failed so;
otherwise no call failed so. -/
def CleanupOutcome (evs : List Event) (res : Res Unit) : Prop :=
  (∀ ev ∈ evs, ev.call.isCleanup = true) ∧
  match res with
  | .err e => ∃ init last err pre, evs = init ++ [last] ∧ (∀ ev ∈ init, ev.failed = false) ∧
      last.error = some err ∧ IsAWSErrNotFound err = false ∧ e = Errorf (pre ++ err.Msg)
  | _ => ∀ ev ∈ evs, ev.failed = false

/-- No two conditions of the list have the same type. -/
def UniqueConditionTypes (conditions : List VirtualServiceCondition) : Prop :=
  (conditions.map VirtualServiceCondition.Type_).Nodup

/-! ## Sample inputs -/

/-- Answer a call: the error `fails` gives for it, else the value `a`. -/
def answer {α : Type} (fails : Call → Option GoError) (c : Call) (a : α) : Except GoError α :=
  match fails c with
  | some e => .error e
  | none => .ok a

/-- A sample environment: the lister holds `vservice` under every key, the mesh
lister holds `mesh` (if any) under its name, mesh names carry no qualifier,
the remote side holds an active router, the routes `existing` and an active
virtual service bound to `boundRouter`, the object store echoes what is
written, and a call fails with the error `fails` gives for it. -/
def sampleEnv (vservice : VirtualService) (mesh : Option Mesh) (existing : aws.Routes)
    (boundRouter : String) (fails : Call → Option GoError) : Env where
  SplitMetaNamespaceKey := fun key => .ok ("ns", key)
  virtualServiceLister := fun _ _ => .ok vservice
  meshLister := fun ns name =>
    match mesh with
    | some m =>
      if m.Namespace = ns ∧ m.Name = name then .ok m else .error ⟨"mesh not found", true⟩
    | none => .error ⟨"mesh not found", true⟩
  parseMeshName := fun name ns => (name, ns)
  virtualServiceDeletionFinalizerName := "virtualServiceDeletion"
  Now := fun tr => 100 + tr.length
  GetVirtualRouter := fun _ name meshName =>
    answer fails (.GetVirtualRouter name meshName) ⟨name, "ACTIVE"⟩
  CreateVirtualRouter := fun _ router meshName =>
    answer fails (.CreateVirtualRouter router meshName) ⟨router.Name, "ACTIVE"⟩
  GetRoutesForVirtualRouter := fun _ routerName meshName =>
    answer fails (.GetRoutesForVirtualRouter routerName meshName) existing
  CreateRoute := fun _ route routerName meshName =>
    answer fails (.CreateRoute route routerName meshName) ()
  UpdateRoute := fun _ route routerName meshName =>
    answer fails (.UpdateRoute route routerName meshName) ()
  DeleteRoute := fun _ name routerName meshName =>
    answer fails (.DeleteRoute name routerName meshName) ()
  GetVirtualService := fun _ name meshName =>
    answer fails (.GetVirtualService name meshName) ⟨"ACTIVE", boundRouter⟩
  CreateVirtualService := fun _ vs => answer fails (.CreateVirtualService vs) ⟨"ACTIVE", boundRouter⟩
  UpdateVirtualService := fun _ vs => answer fails (.UpdateVirtualService vs) ⟨"ACTIVE", boundRouter⟩
  DeleteVirtualService := fun _ name meshName =>
    answer fails (.DeleteVirtualService name meshName) ()
  DeleteVirtualRouter := fun _ name meshName =>
    answer fails (.DeleteVirtualRouter name meshName) ()
  Update := fun _ vs => answer fails (.Update vs) vs
  UpdateStatus := fun _ vs => answer fails (.UpdateStatus vs) vs

/-- No call fails. -/
def noFailure : Call → Option GoError := fun _ => none

/-- A desired route. -/
def sampleRoute (name pathPrefix : String) (targets : Option (List WeightedTarget)) : Route :=
  ⟨name, ⟨⟨pathPrefix⟩, ⟨targets⟩⟩⟩

/-- A VirtualService `vs` of namespace `ns` and mesh `mesh`, bound to the router
`router`, that carries the deletion finalizer and has no condition yet. -/
def sampleVService (routes : List Route) : VirtualService where
  Name := "vs"
  Namespace := "ns"
  DeletionTimestamp := none
  Finalizers := ["virtualServiceDeletion"]
  Spec := ⟨"mesh", some ⟨"router"⟩, routes⟩
  Status := ⟨[]⟩

/-- The desired routes of Scenario B: `r1` and `r3`. -/
def scenarioBDesired : List Route :=
  [sampleRoute "r1" "/" (some [⟨"node-a", 100⟩]), sampleRoute "r3" "/c" (some [⟨"node-c", 100⟩])]

/-- The remote routes of Scenario B: `r1` and `r2`. -/
def scenarioBExisting : aws.Routes :=
  [⟨"r1", "/", [⟨"node-a", 100⟩], "ACTIVE"⟩, ⟨"r2", "/b", [⟨"node-b", 100⟩], "ACTIVE"⟩]

/-- An active Mesh that is not being deleted. -/
def activeMesh : Mesh := ⟨"mesh", "ns", none, true⟩

/-- A Mesh whose deletion has been requested. -/
def deletingMesh : Mesh := ⟨"mesh", "ns", some 7, true⟩

/-- The create of route `r3` fails. -/
def createR3Fails : Call → Option GoError
  | .CreateRoute r _ _ => if r.Name = "r3" then some ⟨"throttled", false⟩ else none
  | _ => none

/-- Every route delete fails with an error that is not a not-found error. -/
def deleteRouteFails : Call → Option GoError
  | .DeleteRoute _ _ _ => some ⟨"throttled", false⟩
  | _ => none

/-- Every write of the object to the object store fails. -/
def updateFails : Call → Option GoError
  | .Update _ => some ⟨"conflict", false⟩
  | _ => none


/-- A VirtualService whose `VirtualServiceActive` condition is `False` since
tick 5. -/
def inactiveVService : VirtualService :=
  { sampleVService [] with Status := ⟨[⟨VirtualServiceActive, ConditionFalse, some 5⟩]⟩ }

/-- A VirtualService whose deletion has been requested. -/
def deletedVService (routes : List Route) : VirtualService :=
  { sampleVService routes with DeletionTimestamp := some 9 }


/-- Scenario B with the create of `r3` failing. -/
def scenarioBEnv : Env :=
  sampleEnv (sampleVService scenarioBDesired) (some activeMesh) scenarioBExisting "router"
    createR3Fails

/-- Scenario D: the VirtualService is being deleted and every route delete
fails with an error that is not a not-found error. -/
def scenarioDEnv : Env :=
  sampleEnv (deletedVService scenarioBDesired) (some activeMesh) scenarioBExisting "router"
    deleteRouteFails


/-- Scenario C: the parent Mesh is being deleted and every route delete fails
with an error that is not a not-found error. -/
def scenarioCEnv : Env :=
  sampleEnv (sampleVService scenarioBDesired) (some deletingMesh) scenarioBExisting "router"
    deleteRouteFails

/-- A VirtualService that does not carry the deletion finalizer yet. -/
def unguardedVService : VirtualService :=
  { sampleVService scenarioBDesired with Finalizers := [] }

/-- The parent Mesh is being deleted, the VirtualService does not carry the
finalizer yet and writing the object fails. -/
def unguardedEnv : Env :=
  sampleEnv unguardedVService (some deletingMesh) scenarioBExisting "router" updateFails

/-- A VirtualService whose `spec.meshName` is empty. -/
def noMeshNameVService : VirtualService :=
  { sampleVService scenarioBDesired with Spec := ⟨"", some ⟨"router"⟩, scenarioBDesired⟩ }

/-- The VirtualService has an empty `spec.meshName`; the store holds the active
Mesh `mesh`. -/
def noMeshNameEnv : Env :=
  sampleEnv noMeshNameVService (some activeMesh) scenarioBExisting "router" noFailure

/-- Scenario B with no failure: the remote router `router` exists and is
active. -/
def existingRouterEnv : Env :=
  sampleEnv (sampleVService scenarioBDesired) (some activeMesh) scenarioBExisting "router"
    noFailure


/-- The desired router name in the words of the spec: `spec.virtualRouter.name`,
or the empty string when `spec.virtualRouter` is unset. -/
def desiredRouterName (desired : VirtualService) : String :=
  match desired.Spec.VirtualRouter with
  | some virtualRouter => virtualRouter.Name
  | none => ""

/-- A VirtualService being deleted whose `spec.virtualRouter` is unset. -/
def routerlessVService (routes : List Route) : VirtualService :=
  { deletedVService routes with Spec := ⟨"mesh", none, routes⟩ }

/-- The VirtualService has no `spec.virtualRouter`; no call fails. -/
def routerlessEnv (routes : List Route) : Env :=
  sampleEnv (routerlessVService routes) (some activeMesh) [] "vs" noFailure


/-- The VirtualService is being deleted and no call fails. -/
def cleanDeletionEnv : Env :=
  sampleEnv (deletedVService scenarioBDesired) (some activeMesh) scenarioBExisting "router"
    noFailure


/-! ## Facts about `GoSet` -/

theorem GoSet.mem_addAll {α : Type} [DecidableEq α] (l : List α) (s : GoSet α) (x : α) :
    x ∈ (GoSet.addAll s l).elems ↔ x ∈ s.elems ∨ x ∈ l := by
  induction l generalizing s with
  | nil => simp [GoSet.addAll]
  | cons a as ih =>
    rw [GoSet.addAll, ih]
    unfold GoSet.Add
    by_cases h : a ∈ s.elems
    · simp only [h, if_true, List.mem_cons]
      constructor
      · rintro (h1 | h1)
        · exact Or.inl h1
        · exact Or.inr (Or.inr h1)
      · rintro (h1 | h1 | h1)
        · exact Or.inl h1
        · exact Or.inl (h1 ▸ h)
        · exact Or.inr h1
    · simp only [h, if_false, List.mem_append, List.mem_singleton, List.mem_cons]
      tauto

theorem GoSet.nodup_addAll {α : Type} [DecidableEq α] (l : List α) (s : GoSet α)
    (hs : s.elems.Nodup) : (GoSet.addAll s l).elems.Nodup := by
  induction l generalizing s with
  | nil => simpa [GoSet.addAll] using hs
  | cons a as ih =>
    rw [GoSet.addAll]
    apply ih
    unfold GoSet.Add
    by_cases h : a ∈ s.elems
    · simpa [h] using hs
    · simp only [h, if_false]
      rw [List.nodup_append]
      refine ⟨hs, List.nodup_singleton a, ?_⟩
      intro x hx hx1
      rw [List.mem_singleton] at hx1
      exact h (hx1 ▸ hx)

theorem GoSet.contains_addAll_new {α : Type} [DecidableEq α] (l : List α) (x : α) :
    (GoSet.addAll GoSet.NewSet l).Contains x = true ↔ x ∈ l := by
  simp [GoSet.Contains, GoSet.mem_addAll, GoSet.NewSet]

/-- `Equal` on sets held without repetition is equality of the element sets. -/
theorem GoSet.equal_iff {α : Type} [DecidableEq α] (s t : GoSet α)
    (hs : s.elems.Nodup) (ht : t.elems.Nodup) :
    s.Equal t = true ↔ s.elems.toFinset = t.elems.toFinset := by
  unfold GoSet.Equal GoSet.Cardinality GoSet.Contains
  constructor
  · intro h
    by_cases hc : s.elems.length = t.elems.length
    · simp only [hc, ne_eq, not_true_eq_false, if_false, List.all_eq_true,
        decide_eq_true_eq] at h
      apply Finset.eq_of_subset_of_card_le
      · intro x hx
        rw [List.mem_toFinset] at hx ⊢
        exact h x hx
      · rw [List.toFinset_card_of_nodup hs, List.toFinset_card_of_nodup ht, hc]
    · simp [hc] at h
  · intro h
    have hc : s.elems.length = t.elems.length := by
      rw [← List.toFinset_card_of_nodup hs, ← List.toFinset_card_of_nodup ht, h]
    simp only [hc, ne_eq, not_true_eq_false, if_false, List.all_eq_true, decide_eq_true_eq]
    intro x hx
    have : x ∈ s.elems.toFinset := List.mem_toFinset.mpr hx
    rw [h] at this
    exact List.mem_toFinset.mp this

theorem GoSet.equal_addAll_iff {α : Type} [DecidableEq α] (l m : List α) :
    (GoSet.addAll GoSet.NewSet l).Equal (GoSet.addAll GoSet.NewSet m) = true ↔
      l.toFinset = m.toFinset := by
  rw [GoSet.equal_iff _ _ (GoSet.nodup_addAll l GoSet.NewSet List.nodup_nil)
    (GoSet.nodup_addAll m GoSet.NewSet List.nodup_nil)]
  constructor
  · intro h
    ext x
    have := congrArg (fun f => x ∈ f) h
    simpa [GoSet.mem_addAll, GoSet.NewSet] using this
  · intro h
    ext x
    have := congrArg (fun f => x ∈ f) h
    simpa [GoSet.mem_addAll, GoSet.NewSet] using this

/-! ## `routeNeedsUpdate` -/

/-- The weighted targets of a desired route as a set (empty for a nil slice). -/
def desiredTargetSet (d : Route) : Finset WeightedTarget :=
  match d.Http.Action.WeightedTargets with
  | some targets => targets.toFinset
  | none => ∅

/-- C2, as stated, fails: a desired route whose weighted-target slice is nil,
against a remote route with the same name and prefix and one weighted target,
is reported as not needing an update although the target sets differ. -/
theorem routeNeedsUpdate_nil_targets_counterexample :
    (⟨"r1", ⟨⟨"/"⟩, ⟨none⟩⟩⟩ : Route).Name
        = (⟨"r1", "/", [⟨"node-a", 100⟩], "ACTIVE"⟩ : aws.Route).Name ∧
    (⟨"r1", ⟨⟨"/"⟩, ⟨none⟩⟩⟩ : Route).Http.Match.Prefix
        = (⟨"r1", "/", [⟨"node-a", 100⟩], "ACTIVE"⟩ : aws.Route).Prefix ∧
    desiredTargetSet ⟨"r1", ⟨⟨"/"⟩, ⟨none⟩⟩⟩
        ≠ (⟨"r1", "/", [⟨"node-a", 100⟩], "ACTIVE"⟩ : aws.Route).WeightedTargets.toFinset ∧
    routeNeedsUpdate ⟨"r1", ⟨⟨"/"⟩, ⟨none⟩⟩⟩ ⟨"r1", "/", [⟨"node-a", 100⟩], "ACTIVE"⟩
        = false := by
  refine ⟨rfl, rfl, ?_, ?_⟩
  · intro h
    have h1 : (⟨"node-a", 100⟩ : WeightedTarget) ∈ desiredTargetSet ⟨"r1", ⟨⟨"/"⟩, ⟨none⟩⟩⟩ := by
      rw [h]; simp
    simp [desiredTargetSet] at h1
  · simp [routeNeedsUpdate]

/-- C2, amended: `routeNeedsUpdate d e` is true exactly when the prefixes differ
or the weighted-target slice of `d` is not nil and, as an unordered set, differs
from the weighted-target set of `e`. -/
theorem routeNeedsUpdate_iff (d : Route) (e : aws.Route) :
    routeNeedsUpdate d e = true ↔
      d.Http.Match.Prefix ≠ e.Prefix ∨
      ∃ targets, d.Http.Action.WeightedTargets = some targets ∧
        targets.toFinset ≠ e.WeightedTargets.toFinset := by
  unfold routeNeedsUpdate
  cases hw : d.Http.Action.WeightedTargets with
  | none => simp
  | some targets =>
    have heq := GoSet.equal_addAll_iff targets e.WeightedTargets
    by_cases hE : (GoSet.addAll GoSet.NewSet targets).Equal e.WeightedTargetSet = true
    · have hfin := heq.mp hE
      simp [hE, hfin]
    · have hfin : targets.toFinset ≠ e.WeightedTargets.toFinset := fun h => hE (heq.mpr h)
      simp [hE, hfin]

/-! ## The Route Differ -/

theorem failedNames_append (a b : List Event) :
    failedNames (a ++ b) = failedNames a ++ failedNames b := by
  simp [failedNames, List.filterMap_append]

theorem updateRoutes.desiredLoop_spec (env : Env) (meshName routerName : String)
    (existing : aws.Routes) (ds : List Route) (tr : Trace) (errs : List String) :
    ∃ evs, updateRoutes.desiredLoop env meshName routerName existing existing.RouteNamesSet
        ds tr errs = (tr ++ evs, errs ++ failedNames evs) ∧
      evs.map Event.routeOp = (ds.filterMap (plannedForDesired existing)).map some := by
  induction ds generalizing tr errs with
  | nil => exact ⟨[], by simp [updateRoutes.desiredLoop, failedNames]⟩
  | cons d ds ih =>
    have hc : existing.RouteNamesSet.Contains d.Name = true ↔
        d.Name ∈ existing.map aws.Route.Name := GoSet.contains_addAll_new _ _
    unfold updateRoutes.desiredLoop
    by_cases hin : d.Name ∈ existing.map aws.Route.Name
    · rw [if_pos (hc.mpr hin)]
      by_cases hn : routeNeedsUpdate d (existing.RouteByName d.Name) = true
      · simp only [hn, if_true]
        cases hr : env.UpdateRoute tr d routerName meshName with
        | error e =>
          obtain ⟨evs, h1, h2⟩ := ih (record tr (.UpdateRoute d routerName meshName)
            (Except.error e : Except GoError Unit)) (errs ++ [d.Name])
          refine ⟨⟨.UpdateRoute d routerName meshName, some e⟩ :: evs, ?_, ?_⟩
          · try dsimp only
            rw [h1]
            simp [record, errorOf, failedNames, Event.routeOp]
          · simp [h2, Event.routeOp, plannedForDesired, hin, hn]
        | ok u =>
          obtain ⟨evs, h1, h2⟩ := ih (record tr (.UpdateRoute d routerName meshName)
            (Except.ok u : Except GoError Unit)) errs
          refine ⟨⟨.UpdateRoute d routerName meshName, none⟩ :: evs, ?_, ?_⟩
          · try dsimp only
            rw [h1]
            simp [record, errorOf, failedNames, Event.routeOp]
          · simp [h2, Event.routeOp, plannedForDesired, hin, hn]
      · simp only [hn]
        obtain ⟨evs, h1, h2⟩ := ih tr errs
        refine ⟨evs, by simpa using h1, ?_⟩
        simp [h2, plannedForDesired, hin, hn]
    · have hc2 : ¬ existing.RouteNamesSet.Contains d.Name = true := fun h => hin (hc.mp h)
      rw [if_neg hc2]
      cases hr : env.CreateRoute tr d routerName meshName with
      | error e =>
        obtain ⟨evs, h1, h2⟩ := ih (record tr (.CreateRoute d routerName meshName)
          (Except.error e : Except GoError Unit)) (errs ++ [d.Name])
        refine ⟨⟨.CreateRoute d routerName meshName, some e⟩ :: evs, ?_, ?_⟩
        · try dsimp only
          rw [h1]
          simp [record, errorOf, failedNames, Event.routeOp]
        · simp [h2, Event.routeOp, plannedForDesired, hin]
      | ok u =>
        obtain ⟨evs, h1, h2⟩ := ih (record tr (.CreateRoute d routerName meshName)
          (Except.ok u : Except GoError Unit)) errs
        refine ⟨⟨.CreateRoute d routerName meshName, none⟩ :: evs, ?_, ?_⟩
        · try dsimp only
          rw [h1]
          simp [record, errorOf, failedNames, Event.routeOp]
        · simp [h2, Event.routeOp, plannedForDesired, hin]

theorem updateRoutes.existingLoop_spec (env : Env) (meshName routerName : String)
    (desired : List Route) (exs : List aws.Route) (tr : Trace) (errs : List String) :
    ∃ evs, updateRoutes.existingLoop env meshName routerName
        (GoSet.addAll GoSet.NewSet (desired.map Route.Name)) exs tr errs
          = (tr ++ evs, errs ++ failedNames evs) ∧
      evs.map Event.routeOp = (exs.filterMap (plannedForExisting desired)).map some := by
  induction exs generalizing tr errs with
  | nil => exact ⟨[], by simp [updateRoutes.existingLoop, failedNames]⟩
  | cons ex exs ih =>
    have hc : (GoSet.addAll GoSet.NewSet (desired.map Route.Name)).Contains ex.Name = true ↔
        ex.Name ∈ desired.map Route.Name := GoSet.contains_addAll_new _ _
    unfold updateRoutes.existingLoop
    by_cases hin : ex.Name ∈ desired.map Route.Name
    · simp only [hc.mpr hin, Bool.not_true, Bool.false_eq_true, if_false]
      obtain ⟨evs, h1, h2⟩ := ih tr errs
      refine ⟨evs, h1, ?_⟩
      simp [h2, plannedForExisting, hin]
    · have hc2 : (GoSet.addAll GoSet.NewSet (desired.map Route.Name)).Contains ex.Name
          = false := by
        cases h : (GoSet.addAll GoSet.NewSet (desired.map Route.Name)).Contains ex.Name with
        | false => rfl
        | true => exact absurd (hc.mp h) hin
      simp only [hc2, Bool.not_false, if_true]
      cases hr : env.DeleteRoute tr ex.Name routerName meshName with
      | error e =>
        obtain ⟨evs, h1, h2⟩ := ih (record tr (.DeleteRoute ex.Name routerName meshName)
          (Except.error e : Except GoError Unit)) (errs ++ [ex.Name])
        refine ⟨⟨.DeleteRoute ex.Name routerName meshName, some e⟩ :: evs, ?_, ?_⟩
        · try dsimp only
          rw [h1]
          simp [record, errorOf, failedNames, Event.routeOp]
        · simp [h2, Event.routeOp, plannedForExisting, hin]
      | ok u =>
        obtain ⟨evs, h1, h2⟩ := ih (record tr (.DeleteRoute ex.Name routerName meshName)
          (Except.ok u : Except GoError Unit)) errs
        refine ⟨⟨.DeleteRoute ex.Name routerName meshName, none⟩ :: evs, ?_, ?_⟩
        · try dsimp only
          rw [h1]
          simp [record, errorOf, failedNames, Event.routeOp]
        · simp [h2, Event.routeOp, plannedForExisting, hin]

/-- The two loops issue the planned operations, in order, whatever each call
returns, and collect the names of the routes whose call returned an error. -/
theorem updateRoutes.loops_spec (env : Env) (tr : Trace) (meshName routerName : String)
    (desired : List Route) (existing : aws.Routes) :
    ∃ evs, updateRoutes.loops env tr meshName routerName desired existing
        = (tr ++ evs, failedNames evs) ∧
      evs.map Event.routeOp = (plannedOps desired existing).map some := by
  obtain ⟨evs1, h1, p1⟩ :=
    updateRoutes.desiredLoop_spec env meshName routerName existing desired tr []
  obtain ⟨evs2, h2, p2⟩ :=
    updateRoutes.existingLoop_spec env meshName routerName desired existing (tr ++ evs1)
      ([] ++ failedNames evs1)
  refine ⟨evs1 ++ evs2, ?_, ?_⟩
  · simp only [updateRoutes.loops, h1, h2]
    simp [failedNames_append]
  · simp [plannedOps, p1, p2]

theorem opsOn_append (n : String) (a b : List (RouteOp × String)) :
    opsOn n (a ++ b) = opsOn n a ++ opsOn n b := by
  simp [opsOn]

theorem opsOn_filterMap_none {α : Type} (nm : α → String) (f : α → Option (RouteOp × String))
    (hf : ∀ a x, f a = some x → x.2 = nm a) (n : String) (l : List α)
    (h : ∀ a ∈ l, nm a = n → f a = none) : opsOn n (l.filterMap f) = [] := by
  induction l with
  | nil => rfl
  | cons a as ih =>
    have ih1 := ih (fun b hb => h b (List.mem_cons_of_mem _ hb))
    cases hfa : f a with
    | none => simpa [List.filterMap_cons, hfa] using ih1
    | some x =>
      have hx : x.2 = nm a := hf a x hfa
      have hne : ¬ x.2 = n := by
        intro hxn
        have := h a (List.mem_cons_self _ _) (hx ▸ hxn)
        rw [hfa] at this
        cases this
      rw [List.filterMap_cons, hfa]
      simp only [opsOn, List.filter_cons, hne, decide_False, Bool.false_eq_true, if_false]
      exact ih1

theorem opsOn_filterMap_mem {α : Type} (nm : α → String) (f : α → Option (RouteOp × String))
    (hf : ∀ a x, f a = some x → x.2 = nm a) (l : List α) (hnd : (l.map nm).Nodup)
    (a : α) (ha : a ∈ l) : opsOn (nm a) (l.filterMap f) = (f a).toList := by
  induction l with
  | nil => cases ha
  | cons b bs ih =>
    rw [List.map_cons, List.nodup_cons] at hnd
    rcases List.mem_cons.mp ha with hab | hab
    · subst hab
      have hrest : opsOn (nm a) (bs.filterMap f) = [] := by
        apply opsOn_filterMap_none nm f hf
        intro c hc hcn
        exact absurd (hcn ▸ List.mem_map_of_mem nm hc) hnd.1
      cases hfa : f a with
      | none => simpa [List.filterMap_cons, hfa] using hrest
      | some x =>
        have hx : x.2 = nm a := hf a x hfa
        rw [List.filterMap_cons, hfa]
        simp only [opsOn, List.filter_cons, hx, decide_True, if_true, Option.toList]
        exact congrArg _ hrest
    · have hne : ¬ nm b = nm a := by
        intro h
        exact hnd.1 (h ▸ List.mem_map_of_mem nm hab)
      have ih1 := ih hnd.2 hab
      cases hfb : f b with
      | none => simpa [List.filterMap_cons, hfb] using ih1
      | some x =>
        have hx : x.2 = nm b := hf b x hfb
        have hne2 : ¬ x.2 = nm a := by rw [hx]; exact hne
        rw [List.filterMap_cons, hfb]
        simp only [opsOn, List.filter_cons, hne2, decide_False, Bool.false_eq_true, if_false]
        exact ih1

theorem plannedForDesired_name (existing : aws.Routes) (d : Route) (x : RouteOp × String)
    (h : plannedForDesired existing d = some x) : x.2 = d.Name := by
  unfold plannedForDesired at h
  split_ifs at h <;> cases h <;> rfl

theorem plannedForExisting_name (desired : List Route) (ex : aws.Route) (x : RouteOp × String)
    (h : plannedForExisting desired ex = some x) : x.2 = ex.Name := by
  unfold plannedForExisting at h
  split_ifs at h
  cases h
  rfl

theorem aws.Routes.RouteByName_mem (rs : aws.Routes) (hnd : (rs.map aws.Route.Name).Nodup)
    (e : aws.Route) (he : e ∈ rs) : aws.Routes.RouteByName rs e.Name = e := by
  induction rs with
  | nil => cases he
  | cons b bs ih =>
    rw [List.map_cons, List.nodup_cons] at hnd
    rcases List.mem_cons.mp he with hab | hab
    · subst hab
      simp [aws.Routes.RouteByName, List.find?_cons]
    · have hne : ¬ b.Name = e.Name := by
        intro h
        exact hnd.1 (h ▸ List.mem_map_of_mem aws.Route.Name hab)
      have ih1 := ih hnd.2 hab
      simp only [aws.Routes.RouteByName, List.find?_cons, hne, decide_False] at ih1 ⊢
      exact ih1

theorem updateRoutes_fst (env : Env) (tr : Trace) (meshName routerName : String)
    (D : List Route) (E : aws.Routes) :
    (updateRoutes env tr meshName routerName D E).1
      = (updateRoutes.loops env tr meshName routerName D E).1 := by
  unfold updateRoutes
  dsimp only
  split_ifs <;> rfl

theorem updateRoutes_snd (env : Env) (tr : Trace) (meshName routerName : String)
    (D : List Route) (E : aws.Routes) :
    (updateRoutes env tr meshName routerName D E).2
      = if (updateRoutes.loops env tr meshName routerName D E).2 = [] then none
        else some (Errorf ("error updating routes: " ++
          " ".intercalate (updateRoutes.loops env tr meshName routerName D E).2)) := by
  unfold updateRoutes
  dsimp only
  cases h : (updateRoutes.loops env tr meshName routerName D E).2 with
  | nil => simp
  | cons a as => simp

/-- The operations of the spec's diff, name by name. -/
theorem plannedOps_per_name (D : List Route) (E : aws.Routes)
    (hD : (D.map Route.Name).Nodup) (hE : (E.map aws.Route.Name).Nodup) :
    (∀ d ∈ D, d.Name ∉ E.map aws.Route.Name →
        opsOn d.Name (plannedOps D E) = [(RouteOp.create, d.Name)]) ∧
    (∀ e ∈ E, e.Name ∉ D.map Route.Name →
        opsOn e.Name (plannedOps D E) = [(RouteOp.delete, e.Name)]) ∧
    (∀ d ∈ D, ∀ e ∈ E, d.Name = e.Name → routeNeedsUpdate d e = true →
        opsOn d.Name (plannedOps D E) = [(RouteOp.update, d.Name)]) ∧
    (∀ d ∈ D, ∀ e ∈ E, d.Name = e.Name → routeNeedsUpdate d e = false →
        opsOn d.Name (plannedOps D E) = []) ∧
    (∀ n, n ∉ D.map Route.Name → n ∉ E.map aws.Route.Name → opsOn n (plannedOps D E) = []) := by
  have hfD := plannedForDesired_name E
  have hfE := plannedForExisting_name D
  refine ⟨?_, ?_, ?_, ?_, ?_⟩
  · intro d hd hnE
    rw [plannedOps, opsOn_append,
      opsOn_filterMap_mem Route.Name _ hfD D hD d hd,
      opsOn_filterMap_none aws.Route.Name _ hfE d.Name E
        (fun a ha hn => absurd (hn ▸ List.mem_map_of_mem aws.Route.Name ha) hnE)]
    simp [plannedForDesired, hnE]
  · intro e he hnD
    rw [plannedOps, opsOn_append,
      opsOn_filterMap_mem aws.Route.Name _ hfE E hE e he,
      opsOn_filterMap_none Route.Name _ hfD e.Name D
        (fun a ha hn => absurd (hn ▸ List.mem_map_of_mem Route.Name ha) hnD)]
    simp [plannedForExisting, hnD]
  · intro d hd e he hde hn
    have hin : d.Name ∈ E.map aws.Route.Name := hde ▸ List.mem_map_of_mem aws.Route.Name he
    have hby : aws.Routes.RouteByName E d.Name = e := hde ▸ aws.Routes.RouteByName_mem E hE e he
    rw [plannedOps, opsOn_append,
      opsOn_filterMap_mem Route.Name _ hfD D hD d hd,
      opsOn_filterMap_none aws.Route.Name _ hfE d.Name E
        (fun a _ han => by
          have : a.Name ∈ D.map Route.Name := han ▸ List.mem_map_of_mem Route.Name hd
          simp [plannedForExisting, this])]
    simp [plannedForDesired, hin, hby, hn]
  · intro d hd e he hde hn
    have hin : d.Name ∈ E.map aws.Route.Name := hde ▸ List.mem_map_of_mem aws.Route.Name he
    have hby : aws.Routes.RouteByName E d.Name = e := hde ▸ aws.Routes.RouteByName_mem E hE e he
    rw [plannedOps, opsOn_append,
      opsOn_filterMap_mem Route.Name _ hfD D hD d hd,
      opsOn_filterMap_none aws.Route.Name _ hfE d.Name E
        (fun a _ han => by
          have : a.Name ∈ D.map Route.Name := han ▸ List.mem_map_of_mem Route.Name hd
          simp [plannedForExisting, this])]
    simp [plannedForDesired, hin, hby, hn]
  · intro n hnD hnE
    rw [plannedOps, opsOn_append,
      opsOn_filterMap_none Route.Name _ hfD n D
        (fun a ha hn => absurd (hn ▸ List.mem_map_of_mem Route.Name ha) hnD),
      opsOn_filterMap_none aws.Route.Name _ hfE n E
        (fun a ha hn => absurd (hn ▸ List.mem_map_of_mem aws.Route.Name ha) hnE)]
    rfl

/-- C1: with unique names in the desired list `D` and in the existing set `E`,
and whatever each remote call returns, the calls `updateRoutes` makes are route
operations only, with exactly one create for each name in `D\E`, exactly one
delete for each name in `E\D`, exactly one update for each name in `D∩E` whose
routes need an update, none for a name in `D∩E` whose routes need none, and none
for a name outside `D∪E`. -/
theorem updateRoutes_one_operation_per_name (env : Env) (tr : Trace)
    (meshName routerName : String) (D : List Route) (E : aws.Routes)
    (hD : (D.map Route.Name).Nodup) (hE : (E.map aws.Route.Name).Nodup) :
    ∃ (evs : List Event) (ops : List (RouteOp × String)),
      (updateRoutes env tr meshName routerName D E).1 = tr ++ evs ∧
      evs.map Event.routeOp = ops.map some ∧
      (∀ d ∈ D, d.Name ∉ E.map aws.Route.Name → opsOn d.Name ops = [(RouteOp.create, d.Name)]) ∧
      (∀ e ∈ E, e.Name ∉ D.map Route.Name → opsOn e.Name ops = [(RouteOp.delete, e.Name)]) ∧
      (∀ d ∈ D, ∀ e ∈ E, d.Name = e.Name → routeNeedsUpdate d e = true →
          opsOn d.Name ops = [(RouteOp.update, d.Name)]) ∧
      (∀ d ∈ D, ∀ e ∈ E, d.Name = e.Name → routeNeedsUpdate d e = false →
          opsOn d.Name ops = []) ∧
      (∀ n, n ∉ D.map Route.Name → n ∉ E.map aws.Route.Name → opsOn n ops = []) := by
  obtain ⟨evs, h1, h2⟩ := updateRoutes.loops_spec env tr meshName routerName D E
  refine ⟨evs, plannedOps D E, ?_, h2, plannedOps_per_name D E hD hE⟩
  rw [updateRoutes_fst, h1]

/-- C1 at Scenario B (remote `{r1, r2}`, desired `{r1, r3}`). -/
theorem updateRoutes_one_operation_per_name_witness :
    (scenarioBDesired.map Route.Name).Nodup ∧ (scenarioBExisting.map aws.Route.Name).Nodup ∧
    ∃ (evs : List Event) (ops : List (RouteOp × String)),
      (updateRoutes scenarioBEnv [] "mesh" "router"
        scenarioBDesired scenarioBExisting).1 = [] ++ evs ∧
      evs.map Event.routeOp = ops.map some ∧
      (∀ d ∈ scenarioBDesired, d.Name ∉ scenarioBExisting.map aws.Route.Name →
          opsOn d.Name ops = [(RouteOp.create, d.Name)]) ∧
      (∀ e ∈ scenarioBExisting, e.Name ∉ scenarioBDesired.map Route.Name →
          opsOn e.Name ops = [(RouteOp.delete, e.Name)]) ∧
      (∀ d ∈ scenarioBDesired, ∀ e ∈ scenarioBExisting, d.Name = e.Name →
          routeNeedsUpdate d e = true → opsOn d.Name ops = [(RouteOp.update, d.Name)]) ∧
      (∀ d ∈ scenarioBDesired, ∀ e ∈ scenarioBExisting, d.Name = e.Name →
          routeNeedsUpdate d e = false → opsOn d.Name ops = []) ∧
      (∀ n, n ∉ scenarioBDesired.map Route.Name → n ∉ scenarioBExisting.map aws.Route.Name →
          opsOn n ops = []) :=
  ⟨by decide, by decide,
    updateRoutes_one_operation_per_name _ [] "mesh" "router" scenarioBDesired scenarioBExisting
      (by decide) (by decide)⟩

theorem names_sublist_filterMap {α : Type} (nm : α → String)
    (f : α → Option (RouteOp × String)) (hf : ∀ a x, f a = some x → x.2 = nm a) (l : List α) :
    ((l.filterMap f).map Prod.snd).Sublist (l.map nm) := by
  induction l with
  | nil => simp
  | cons a as ih =>
    cases hfa : f a with
    | none =>
      rw [List.filterMap_cons, hfa]
      exact List.Sublist.cons _ ih
    | some x =>
      rw [List.filterMap_cons, hfa, List.map_cons, List.map_cons, hf a x hfa]
      exact List.Sublist.cons₂ _ ih

theorem plannedOps_names_nodup (D : List Route) (E : aws.Routes)
    (hD : (D.map Route.Name).Nodup) (hE : (E.map aws.Route.Name).Nodup) :
    ((plannedOps D E).map Prod.snd).Nodup := by
  have hA := names_sublist_filterMap Route.Name _ (plannedForDesired_name E) D
  have hB := names_sublist_filterMap aws.Route.Name _ (plannedForExisting_name D) E
  rw [plannedOps, List.map_append, List.nodup_append]
  refine ⟨hA.nodup hD, hB.nodup hE, ?_⟩
  intro n hnA hnB
  have hnD : n ∈ D.map Route.Name := hA.subset hnA
  rw [List.mem_map] at hnB
  obtain ⟨o, ho, hon⟩ := hnB
  rw [List.mem_filterMap] at ho
  obtain ⟨e, _, hpe⟩ := ho
  unfold plannedForExisting at hpe
  split_ifs at hpe with hin
  cases hpe
  have hen : e.Name = n := hon
  exact hin (hen ▸ hnD)

theorem failedNames_sublist (evs : List Event) :
    (failedNames evs).Sublist ((evs.map Event.routeOp).filterMap (Option.map Prod.snd)) := by
  induction evs with
  | nil => simp [failedNames]
  | cons ev evs ih =>
    unfold failedNames at ih ⊢
    rw [List.map_cons, List.filterMap_cons, List.filterMap_cons]
    by_cases he : ev.error.isSome = true
    · simp only [he, if_true]
      cases hro : Option.map Prod.snd ev.routeOp with
      | none => exact ih
      | some n => exact List.Sublist.cons₂ _ ih
    · simp only [he, Bool.false_eq_true, if_false]
      cases hro : Option.map Prod.snd ev.routeOp with
      | none => exact ih
      | some n => exact List.Sublist.cons _ ih

theorem mem_failedNames (evs : List Event) (n : String) :
    n ∈ failedNames evs ↔
      ∃ ev ∈ evs, ev.error.isSome = true ∧ ∃ k, ev.routeOp = some (k, n) := by
  unfold failedNames
  rw [List.mem_filterMap]
  constructor
  · rintro ⟨ev, hev, h⟩
    by_cases he : ev.error.isSome = true
    · simp only [he, if_true, Option.map_eq_some'] at h
      obtain ⟨o, ho, hon⟩ := h
      exact ⟨ev, hev, he, o.1, by rw [ho, ← hon]⟩
    · simp [he] at h
  · rintro ⟨ev, hev, he, k, hk⟩
    exact ⟨ev, hev, by simp [he, hk]⟩

/-- C3: with unique names in `D` and in `E`, `updateRoutes` attempts every
operation of the diff whatever the earlier ones returned, returns an error if
and only if one of the calls it made returned an error, and the message of that
error lists the names of the routes whose call failed, each once and no other
name. -/
theorem updateRoutes_error_names_failed_routes (env : Env) (tr : Trace)
    (meshName routerName : String) (D : List Route) (E : aws.Routes)
    (hD : (D.map Route.Name).Nodup) (hE : (E.map aws.Route.Name).Nodup) :
    ∃ evs : List Event,
      (updateRoutes env tr meshName routerName D E).1 = tr ++ evs ∧
      evs.map Event.routeOp = (plannedOps D E).map some ∧
      ((updateRoutes env tr meshName routerName D E).2.isSome = true ↔
          ∃ ev ∈ evs, ev.error.isSome = true) ∧
      (∀ e, (updateRoutes env tr meshName routerName D E).2 = some e →
          e = Errorf ("error updating routes: " ++ " ".intercalate (failedNames evs))) ∧
      (failedNames evs).Nodup ∧
      (∀ n, n ∈ failedNames evs ↔
          ∃ ev ∈ evs, ev.error.isSome = true ∧ ∃ k, ev.routeOp = some (k, n)) := by
  obtain ⟨evs, h1, h2⟩ := updateRoutes.loops_spec env tr meshName routerName D E
  have hall : ∀ ev ∈ evs, ∃ o, ev.routeOp = some o := by
    intro ev hev
    have : ev.routeOp ∈ evs.map Event.routeOp := List.mem_map_of_mem _ hev
    rw [h2, List.mem_map] at this
    obtain ⟨o, _, ho⟩ := this
    exact ⟨o, ho.symm⟩
  refine ⟨evs, by rw [updateRoutes_fst, h1], h2, ?_, ?_, ?_, mem_failedNames evs⟩
  · rw [updateRoutes_snd, h1]
    dsimp only
    constructor
    · intro h
      cases hf : failedNames evs with
      | nil => simp [hf] at h
      | cons n ns =>
        have hn : n ∈ failedNames evs := by rw [hf]; exact List.mem_cons_self _ _
        obtain ⟨ev, hev, he, _⟩ := (mem_failedNames evs n).mp hn
        exact ⟨ev, hev, he⟩
    · rintro ⟨ev, hev, he⟩
      obtain ⟨o, ho⟩ := hall ev hev
      have hn : o.2 ∈ failedNames evs := (mem_failedNames evs o.2).mpr ⟨ev, hev, he, o.1, ho⟩
      have hne : failedNames evs ≠ [] := List.ne_nil_of_mem hn
      simp [hne]
  · intro e he
    rw [updateRoutes_snd, h1] at he
    dsimp only at he
    split_ifs at he
    cases he
    rfl
  · have hsub := failedNames_sublist evs
    rw [h2, List.filterMap_map] at hsub
    have heq : List.filterMap (Option.map Prod.snd ∘ some) (plannedOps D E)
        = (plannedOps D E).map Prod.snd := by
      induction plannedOps D E with
      | nil => rfl
      | cons a as ih => simp [List.filterMap_cons, ih]
    rw [heq] at hsub
    exact hsub.nodup (plannedOps_names_nodup D E hD hE)

/-- C3 at Scenario B, with the create of `r3` failing. -/
theorem updateRoutes_error_names_failed_routes_witness :
    (scenarioBDesired.map Route.Name).Nodup ∧ (scenarioBExisting.map aws.Route.Name).Nodup ∧
    ∃ evs : List Event,
      (updateRoutes scenarioBEnv [] "mesh" "router"
        scenarioBDesired scenarioBExisting).1 = [] ++ evs ∧
      evs.map Event.routeOp = (plannedOps scenarioBDesired scenarioBExisting).map some ∧
      ((updateRoutes scenarioBEnv [] "mesh" "router"
        scenarioBDesired scenarioBExisting).2.isSome = true ↔
          ∃ ev ∈ evs, ev.error.isSome = true) ∧
      (∀ e, (updateRoutes scenarioBEnv [] "mesh" "router"
        scenarioBDesired scenarioBExisting).2 = some e →
          e = Errorf ("error updating routes: " ++ " ".intercalate (failedNames evs))) ∧
      (failedNames evs).Nodup ∧
      (∀ n, n ∈ failedNames evs ↔
          ∃ ev ∈ evs, ev.error.isSome = true ∧ ∃ k, ev.routeOp = some (k, n)) :=
  ⟨by decide, by decide,
    updateRoutes_error_names_failed_routes _ [] "mesh" "router" scenarioBDesired
      scenarioBExisting (by decide) (by decide)⟩

/-! ## Cleanup and the deletion path -/

theorem CleanupOutcome.append (evs1 evs2 : List Event) (res : Res Unit)
    (h1 : ∀ ev ∈ evs1, ev.call.isCleanup = true ∧ ev.failed = false)
    (h2 : CleanupOutcome evs2 res) : CleanupOutcome (evs1 ++ evs2) res := by
  obtain ⟨hc, hr⟩ := h2
  refine ⟨?_, ?_⟩
  · intro ev hev
    rcases List.mem_append.mp hev with h | h
    · exact (h1 ev h).1
    · exact hc ev h
  · cases res with
    | err e =>
      obtain ⟨init, last, err, pre, hevs, hinit, hlast, hnf, he⟩ := hr
      refine ⟨evs1 ++ init, last, err, pre, ?_, ?_, hlast, hnf, he⟩
      · rw [hevs, List.append_assoc]
      · intro ev hev
        rcases List.mem_append.mp hev with h | h
        · exact (h1 ev h).2
        · exact hinit ev h
    | ok u =>
      intro ev hev
      rcases List.mem_append.mp hev with h | h
      · exact (h1 ev h).2
      · exact hr ev h
    | fault =>
      intro ev hev
      rcases List.mem_append.mp hev with h | h
      · exact (h1 ev h).2
      · exact hr ev h

theorem CleanupOutcome.nil (res : Res Unit) (h : ∀ e, res ≠ .err e) : CleanupOutcome [] res := by
  refine ⟨by simp, ?_⟩
  cases res with
  | err e => exact absurd rfl (h e)
  | ok u => simp
  | fault => simp

theorem CleanupOutcome.single_failed (c : Call) (err : GoError) (pre : String)
    (hc : c.isCleanup = true) (hnf : IsAWSErrNotFound err = false) :
    CleanupOutcome [⟨c, some err⟩] (.err (Errorf (pre ++ err.Msg))) := by
  refine ⟨by simpa using hc, [], ⟨c, some err⟩, err, pre, by simp, by simp, rfl, hnf, rfl⟩

/-- A cleanup call that did not fail with an error other than not-found, followed
by a run of the cleanup. -/
theorem CleanupOutcome.cons (c : Call) (eo : Option GoError) (evs : List Event) (res : Res Unit)
    (hc : c.isCleanup = true) (hf : (⟨c, eo⟩ : Event).failed = false)
    (h : CleanupOutcome evs res) : CleanupOutcome (⟨c, eo⟩ :: evs) res := by
  have := CleanupOutcome.append [⟨c, eo⟩] evs res
    (by intro ev hev; rw [List.mem_singleton] at hev; subst hev; exact ⟨hc, hf⟩) h
  simpa using this

theorem deleteVServiceResources.routes_outcome (env : Env) (vservice : VirtualService)
    (meshName : String) (rs : List Route) (tr : Trace) :
    ∃ evs, (deleteVServiceResources.routes env vservice meshName rs tr).1 = tr ++ evs ∧
      CleanupOutcome evs (deleteVServiceResources.routes env vservice meshName rs tr).2 := by
  induction rs generalizing tr with
  | nil => exact ⟨[], by simp [deleteVServiceResources.routes],
      CleanupOutcome.nil _ (by simp [deleteVServiceResources.routes])⟩
  | cons r rs ih =>
    unfold deleteVServiceResources.routes
    cases hvr : vservice.Spec.VirtualRouter with
    | none => exact ⟨[], by simp, CleanupOutcome.nil _ (by simp)⟩
    | some vr =>
      dsimp only
      cases hres : env.DeleteRoute tr r.Name vr.Name meshName with
      | error err =>
        dsimp only
        cases hnf : IsAWSErrNotFound err with
        | false =>
          refine ⟨[⟨.DeleteRoute r.Name vr.Name meshName, some err⟩], ?_, ?_⟩
          · simp [record, errorOf]
          · simpa using CleanupOutcome.single_failed (.DeleteRoute r.Name vr.Name meshName) err _
              rfl hnf
        | true =>
          obtain ⟨evs, h1, h2⟩ := ih (record tr (.DeleteRoute r.Name vr.Name meshName)
            (Except.error err : Except GoError Unit))
          refine ⟨⟨.DeleteRoute r.Name vr.Name meshName, some err⟩ :: evs, ?_, ?_⟩
          · simp only [Bool.not_true, Bool.false_eq_true, if_false]
            rw [h1]; simp [record, errorOf]
          · simp only [Bool.not_true, Bool.false_eq_true, if_false]
            exact CleanupOutcome.cons _ _ _ _ rfl (by simp [Event.failed, hnf]) h2
      | ok u =>
        dsimp only
        obtain ⟨evs, h1, h2⟩ := ih (record tr (.DeleteRoute r.Name vr.Name meshName)
          (Except.ok u : Except GoError Unit))
        refine ⟨⟨.DeleteRoute r.Name vr.Name meshName, none⟩ :: evs, ?_, ?_⟩
        · rw [h1]; simp [record, errorOf]
        · exact CleanupOutcome.cons _ _ _ _ rfl (by simp [Event.failed]) h2

theorem deleteVServiceResources.router_outcome (env : Env) (vservice : VirtualService)
    (meshName : String) (tr : Trace) :
    ∃ evs, (deleteVServiceResources.router env vservice meshName tr).1 = tr ++ evs ∧
      CleanupOutcome evs (deleteVServiceResources.router env vservice meshName tr).2 := by
  unfold deleteVServiceResources.router
  cases hvr : vservice.Spec.VirtualRouter with
  | none => exact ⟨[], by simp, CleanupOutcome.nil _ (by simp)⟩
  | some vr =>
    dsimp only
    cases hres : env.DeleteVirtualRouter tr vr.Name meshName with
    | error err =>
      dsimp only
      cases hnf : IsAWSErrNotFound err with
      | false =>
        refine ⟨[⟨.DeleteVirtualRouter vr.Name meshName, some err⟩], ?_, ?_⟩
        · simp [record, errorOf]
        · simpa using CleanupOutcome.single_failed (.DeleteVirtualRouter vr.Name meshName) err _
            rfl hnf
      | true =>
        refine ⟨[⟨.DeleteVirtualRouter vr.Name meshName, some err⟩], ?_, ?_⟩
        · simp [record, errorOf]
        · simpa using CleanupOutcome.cons (.DeleteVirtualRouter vr.Name meshName) (some err) []
            (.ok ()) rfl (by simp [Event.failed, hnf]) (CleanupOutcome.nil _ (by simp))
    | ok u =>
      refine ⟨[⟨.DeleteVirtualRouter vr.Name meshName, none⟩], ?_, ?_⟩
      · simp [record, errorOf]
      · simpa using CleanupOutcome.cons (.DeleteVirtualRouter vr.Name meshName) none []
          (.ok ()) rfl (by simp [Event.failed]) (CleanupOutcome.nil _ (by simp))

theorem deleteVServiceResources.service_outcome (env : Env) (vservice : VirtualService)
    (meshName : String) (tr : Trace) :
    ∃ evs, (deleteVServiceResources.service env vservice meshName tr).1 = tr ++ evs ∧
      CleanupOutcome evs (deleteVServiceResources.service env vservice meshName tr).2 := by
  unfold deleteVServiceResources.service
  dsimp only
  cases hres : env.DeleteVirtualService tr vservice.Name meshName with
  | error err =>
    dsimp only
    cases hnf : IsAWSErrNotFound err with
    | false =>
      refine ⟨[⟨.DeleteVirtualService vservice.Name meshName, some err⟩], ?_, ?_⟩
      · simp [record, errorOf]
      · simpa using CleanupOutcome.single_failed (.DeleteVirtualService vservice.Name meshName)
          err _ rfl hnf
    | true =>
      obtain ⟨evs, h1, h2⟩ := deleteVServiceResources.router_outcome env vservice meshName
        (record tr (.DeleteVirtualService vservice.Name meshName)
          (Except.error err : Except GoError Unit))
      refine ⟨⟨.DeleteVirtualService vservice.Name meshName, some err⟩ :: evs, ?_, ?_⟩
      · simp only [Bool.not_true, Bool.false_eq_true, if_false]
        rw [h1]; simp [record, errorOf]
      · simp only [Bool.not_true, Bool.false_eq_true, if_false]
        exact CleanupOutcome.cons _ _ _ _ rfl (by simp [Event.failed, hnf]) h2
  | ok u =>
    dsimp only
    obtain ⟨evs, h1, h2⟩ := deleteVServiceResources.router_outcome env vservice meshName
      (record tr (.DeleteVirtualService vservice.Name meshName)
        (Except.ok u : Except GoError Unit))
    refine ⟨⟨.DeleteVirtualService vservice.Name meshName, none⟩ :: evs, ?_, ?_⟩
    · rw [h1]; simp [record, errorOf]
    · exact CleanupOutcome.cons _ _ _ _ rfl (by simp [Event.failed]) h2

/-- The cleanup makes cleanup calls only and stops at the first of them that
fails with an error other than not-found, which it returns. -/
theorem deleteVServiceResources_outcome (env : Env) (tr : Trace) (vservice : VirtualService) :
    ∃ evs, (deleteVServiceResources env tr vservice).1 = tr ++ evs ∧
      CleanupOutcome evs (deleteVServiceResources env tr vservice).2 := by
  unfold deleteVServiceResources
  dsimp only
  obtain ⟨evs1, h1, o1⟩ := deleteVServiceResources.routes_outcome env vservice
    (env.parseMeshName vservice.Spec.MeshName vservice.Namespace).1 vservice.Spec.Routes tr
  generalize deleteVServiceResources.routes env vservice
    (env.parseMeshName vservice.Spec.MeshName vservice.Namespace).1 vservice.Spec.Routes tr
    = p at h1 o1
  obtain ⟨tr1, res1⟩ := p
  dsimp only at h1 o1
  subst h1
  cases res1 with
  | err e => exact ⟨evs1, rfl, o1⟩
  | fault => exact ⟨evs1, rfl, o1⟩
  | ok u =>
    dsimp only
    obtain ⟨evs2, h2, o2⟩ := deleteVServiceResources.service_outcome env vservice
      (env.parseMeshName vservice.Spec.MeshName vservice.Namespace).1 (tr ++ evs1)
    refine ⟨evs1 ++ evs2, by rw [h2, List.append_assoc], ?_⟩
    exact CleanupOutcome.append evs1 evs2 _ (fun ev hev => ⟨o1.1 ev hev, o1.2 ev hev⟩) o2

theorem Call.isUpdate_of_isCleanup (c : Call) (h : c.isCleanup = true) : c.isUpdate = false := by
  cases c <;> simp_all [Call.isCleanup, Call.isUpdate]

theorem containsFinalizer_removeFinalizer (vservice : VirtualService) (finalizer : String) :
    containsFinalizer (removeFinalizer vservice finalizer).1 finalizer = false := by
  simp [containsFinalizer, removeFinalizer, List.mem_filter]

/-- The events of `handleVServiceDelete` when the deletion finalizer is present:
the finalizer is removed or the object written only if no cleanup call made
failed with an error other than not-found; a cleanup call failing so is the
last call, its error is returned, the object is the one received and no object
update is issued; and when the run does not fault and no cleanup call fails so,
the finalizer is removed and the object is written. -/
theorem handleVServiceDelete_guard_events (env : Env) (tr : Trace)
    (vservice : VirtualService)
    (hfin : containsFinalizer vservice env.virtualServiceDeletionFinalizerName = true) :
    ∃ evs : List Event,
      (handleVServiceDelete env tr vservice).1 = tr ++ evs ∧
      ((containsFinalizer (handleVServiceDelete env tr vservice).2.1
            env.virtualServiceDeletionFinalizerName = false ∨
          ∃ ev ∈ evs, ev.call.isUpdate = true) →
        ∀ ev ∈ evs, ev.call.isCleanup = true → ev.failed = false) ∧
      (∀ ev ∈ evs, ev.call.isCleanup = true → ev.failed = true →
        (∃ pre err, ev.error = some err ∧
          (handleVServiceDelete env tr vservice).2.2 = .err (Errorf (pre ++ err.Msg))) ∧
        evs.getLast? = some ev ∧
        (handleVServiceDelete env tr vservice).2.1 = vservice ∧
        ∀ ev' ∈ evs, ev'.call.isUpdate = false) ∧
      ((handleVServiceDelete env tr vservice).2.2 ≠ .fault →
        (∀ ev ∈ evs, ev.call.isCleanup = true → ev.failed = false) →
        containsFinalizer (handleVServiceDelete env tr vservice).2.1
            env.virtualServiceDeletionFinalizerName = false ∧
          ∃ eo, evs.getLast? =
            some ⟨.Update (handleVServiceDelete env tr vservice).2.1, eo⟩) := by
  unfold handleVServiceDelete
  rw [if_pos hfin]
  obtain ⟨evs, h1, o⟩ := deleteVServiceResources_outcome env tr vservice
  generalize deleteVServiceResources env tr vservice = p at h1 o
  obtain ⟨tr1, res⟩ := p
  dsimp only at h1 o
  subst h1
  obtain ⟨hcl, hres⟩ := o
  have hnoupd : ∀ ev ∈ evs, ev.call.isUpdate = false :=
    fun ev hev => Call.isUpdate_of_isCleanup _ (hcl ev hev)
  cases res with
  | err e =>
    dsimp only at hres ⊢
    obtain ⟨init, last, err, pre, hevs, hinit, hlast, hnf, he⟩ := hres
    have hlastf : last.failed = true := by simp [Event.failed, hlast, hnf]
    refine ⟨evs, rfl, ?_, ?_, ?_⟩
    · rintro (h | ⟨ev, hev, hu⟩)
      · rw [hfin] at h; cases h
      · rw [hnoupd ev hev] at hu; cases hu
    · intro ev hev _ hf
      have hev2 : ev = last := by
        rw [hevs] at hev
        rcases List.mem_append.mp hev with h | h
        · rw [hinit ev h] at hf; cases hf
        · exact List.mem_singleton.mp h
      subst hev2
      exact ⟨⟨pre, err, hlast, by rw [he]⟩, by rw [hevs]; simp, rfl, hnoupd⟩
    · intro _ hall
      have hmem : last ∈ evs := by rw [hevs]; simp
      have := hall last hmem (hcl last hmem)
      rw [hlastf] at this; cases this
  | fault =>
    dsimp only at hres ⊢
    refine ⟨evs, rfl, ?_, ?_, ?_⟩
    · rintro (h | ⟨ev, hev, hu⟩)
      · rw [hfin] at h; cases h
      · rw [hnoupd ev hev] at hu; cases hu
    · intro ev hev _ hf
      rw [hres ev hev] at hf; cases hf
    · intro h; exact absurd rfl h
  | ok u =>
    dsimp only at hres ⊢
    have hrm := containsFinalizer_removeFinalizer vservice
      env.virtualServiceDeletionFinalizerName
    have hshape : removeFinalizer vservice env.virtualServiceDeletionFinalizerName
        = ((removeFinalizer vservice env.virtualServiceDeletionFinalizerName).1, none) := rfl
    rw [hshape]
    dsimp only
    generalize (removeFinalizer vservice env.virtualServiceDeletionFinalizerName).1 = vs1 at hrm
    unfold updateVServiceResource
    dsimp only
    have key : ∀ eo : Option GoError, ∀ resv : VirtualService × Res Unit, resv.1 = vs1 →
        ((containsFinalizer resv.1 env.virtualServiceDeletionFinalizerName = false ∨
            ∃ ev ∈ evs ++ [⟨.Update vs1, eo⟩], ev.call.isUpdate = true) →
          ∀ ev ∈ evs ++ [⟨.Update vs1, eo⟩], ev.call.isCleanup = true → ev.failed = false) ∧
        (∀ ev ∈ evs ++ [⟨.Update vs1, eo⟩], ev.call.isCleanup = true → ev.failed = true →
          (∃ pre err, ev.error = some err ∧ resv.2 = .err (Errorf (pre ++ err.Msg))) ∧
          (evs ++ [(⟨.Update vs1, eo⟩ : Event)]).getLast? = some ev ∧
          resv.1 = vservice ∧
          ∀ ev' ∈ evs ++ [⟨.Update vs1, eo⟩], ev'.call.isUpdate = false) ∧
        (resv.2 ≠ .fault →
          (∀ ev ∈ evs ++ [⟨.Update vs1, eo⟩], ev.call.isCleanup = true → ev.failed = false) →
          containsFinalizer resv.1 env.virtualServiceDeletionFinalizerName = false ∧
            ∃ eo', (evs ++ [(⟨.Update vs1, eo⟩ : Event)]).getLast? =
              some ⟨.Update resv.1, eo'⟩) := by
      intro eo resv hresv
      have hnf : ∀ ev ∈ evs ++ [(⟨.Update vs1, eo⟩ : Event)], ev.call.isCleanup = true →
          ev.failed = false := by
        intro ev hev hc
        rcases List.mem_append.mp hev with h | h
        · exact hres ev h
        · rw [List.mem_singleton] at h
          subst h
          simp [Call.isCleanup] at hc
      refine ⟨fun _ => hnf, ?_, ?_⟩
      · intro ev hev hc hf
        rw [hnf ev hev hc] at hf; cases hf
      · intro _ _
        rw [hresv]
        exact ⟨hrm, eo, by simp⟩
    cases hupd : env.Update (tr ++ evs) vs1 with
    | error err =>
      refine ⟨evs ++ [⟨.Update vs1, some err⟩], by simp [record, errorOf], ?_⟩
      exact key (some err) (vs1, .err (Errorf ("error removing finalizer "
        ++ env.virtualServiceDeletionFinalizerName ++ " to virtual service " ++ vservice.Name
        ++ " during deletion: " ++ err.Msg))) rfl
    | ok v =>
      refine ⟨evs ++ [⟨.Update vs1, none⟩], by simp [record, errorOf], ?_⟩
      exact key none (vs1, .ok ()) rfl

/-! ## The Condition Tracker -/

theorem getVServiceCondition_of_mem (T : VirtualServiceConditionType)
    (conditions : List VirtualServiceCondition) (hu : UniqueConditionTypes conditions)
    (c : VirtualServiceCondition) (hc : c ∈ conditions) (hT : c.Type_ = T) :
    getVServiceCondition T ⟨conditions⟩ = c := by
  unfold getVServiceCondition
  dsimp only
  induction conditions with
  | nil => cases hc
  | cons b bs ih =>
    unfold UniqueConditionTypes at hu
    rw [List.map_cons, List.nodup_cons] at hu
    rcases List.mem_cons.mp hc with h | h
    · subst h
      simp [List.find?_cons, hT]
    · have hne : ¬ b.Type_ = T := by
        intro hb
        apply hu.1
        rw [hb, ← hT]
        exact List.mem_map_of_mem _ h
      simp only [List.find?_cons, hne, decide_False]
      exact ih hu.2 h

theorem getVServiceCondition_absent (T : VirtualServiceConditionType)
    (conditions : List VirtualServiceCondition) (h : ∀ c ∈ conditions, c.Type_ ≠ T) :
    getVServiceCondition T ⟨conditions⟩ = ⟨"", "", none⟩ := by
  unfold getVServiceCondition
  dsimp only
  have : conditions.find? (fun condition => decide (condition.Type_ = T)) = none := by
    rw [List.find?_eq_none]
    intro c hc
    simpa using h c hc
  rw [this]

/-- When the condition of the given type is present with another status,
`updateVServiceCondition` sends the object as it received it to the status
update: the new status and timestamp are set on a copy of the condition only. -/
theorem updateVServiceCondition_changed_status (env : Env) (tr : Trace)
    (vservice : VirtualService) (T : VirtualServiceConditionType) (status : ConditionStatus)
    (c : VirtualServiceCondition) (hu : UniqueConditionTypes vservice.Status.Conditions)
    (hc : c ∈ vservice.Status.Conditions) (hT : c.Type_ = T) (hne : T ≠ "")
    (hs : c.Status ≠ status) :
    updateVServiceCondition env tr vservice T status
      = (tr ++ [⟨.UpdateStatus vservice, errorOf (env.UpdateStatus tr vservice)⟩], vservice,
          (env.UpdateStatus tr vservice).map some) := by
  have hget := getVServiceCondition_of_mem T vservice.Status.Conditions hu c hc hT
  have hz : c ≠ (⟨"", "", none⟩ : VirtualServiceCondition) := by
    intro h
    rw [h] at hT
    exact hne hT.symm
  unfold updateVServiceCondition
  dsimp only
  rw [show vservice.Status = ⟨vservice.Status.Conditions⟩ from rfl, hget, if_neg hz, if_neg hs]
  rfl

/-- C5 fails on the code: for a VirtualService whose `VirtualServiceActive`
condition is `False` since tick 5, `updateVServiceCondition` with status `True`
issues the status update with the object unchanged: the persisted condition
still has status `False` and the old `lastTransitionTime`. -/
theorem updateVServiceCondition_changed_status_not_persisted :
    inactiveVService.Status.Conditions = [⟨VirtualServiceActive, ConditionFalse, some 5⟩] ∧
    ConditionTrue ≠ ConditionFalse ∧
    updateVServiceCondition (sampleEnv inactiveVService (some activeMesh) [] "router" noFailure)
        [] inactiveVService VirtualServiceActive ConditionTrue
      = ([⟨.UpdateStatus inactiveVService, none⟩], inactiveVService,
          .ok (some inactiveVService)) := by
  refine ⟨rfl, by decide, ?_⟩
  rfl

/-- C6: when the conditions hold a condition of type `T` with status `s`,
`updateVServiceCondition T s` leaves the object as it is, makes no call and
returns `(nil, nil)`; when they hold no condition of type `T`, it appends the one
condition `(T, s, now)`, sends that object to the status update, and the
conditions keep at most one entry per type. -/
theorem updateVServiceCondition_idempotent (env : Env) (tr : Trace)
    (vservice : VirtualService) (T : VirtualServiceConditionType) (s : ConditionStatus) :
    (∀ c ∈ vservice.Status.Conditions, c.Type_ = T → c.Status = s → T ≠ "" →
      UniqueConditionTypes vservice.Status.Conditions →
      updateVServiceCondition env tr vservice T s = (tr, vservice, .ok none)) ∧
    ((∀ c ∈ vservice.Status.Conditions, c.Type_ ≠ T) →
      updateVServiceCondition env tr vservice T s
        = (tr ++ [⟨.UpdateStatus { vservice with
              Status := ⟨vservice.Status.Conditions ++ [⟨T, s, some (env.Now tr)⟩]⟩ },
            errorOf (env.UpdateStatus tr { vservice with
              Status := ⟨vservice.Status.Conditions ++ [⟨T, s, some (env.Now tr)⟩]⟩ })⟩],
           { vservice with
              Status := ⟨vservice.Status.Conditions ++ [⟨T, s, some (env.Now tr)⟩]⟩ },
           (env.UpdateStatus tr { vservice with
              Status := ⟨vservice.Status.Conditions ++ [⟨T, s, some (env.Now tr)⟩]⟩ }).map some)
      ∧ (UniqueConditionTypes vservice.Status.Conditions →
          UniqueConditionTypes (vservice.Status.Conditions ++ [⟨T, s, some (env.Now tr)⟩]))) := by
  constructor
  · intro c hc hT hs hne hu
    have hget := getVServiceCondition_of_mem T vservice.Status.Conditions hu c hc hT
    have hz : c ≠ (⟨"", "", none⟩ : VirtualServiceCondition) := by
      intro h
      rw [h] at hT
      exact hne hT.symm
    unfold updateVServiceCondition
    dsimp only
    rw [show vservice.Status = ⟨vservice.Status.Conditions⟩ from rfl, hget, if_neg hz, if_pos hs]
  · intro habs
    have hget := getVServiceCondition_absent T vservice.Status.Conditions habs
    constructor
    · unfold updateVServiceCondition
      dsimp only
      rw [show vservice.Status = ⟨vservice.Status.Conditions⟩ from rfl, hget, if_pos rfl]
      rfl
    · intro hu
      unfold UniqueConditionTypes at hu ⊢
      rw [List.map_append, List.nodup_append]
      refine ⟨hu, by simp, ?_⟩
      intro t ht ht2
      simp only [List.map_cons, List.map_nil, List.mem_singleton] at ht2
      rw [List.mem_map] at ht
      obtain ⟨c, hc, hct⟩ := ht
      exact habs c hc (hct.trans ht2)

/-- C6 at a VirtualService whose `VirtualServiceActive` condition is `False`:
upserting `False` again, and upserting the absent `RoutesActive`. -/
theorem updateVServiceCondition_idempotent_witness :
    updateVServiceCondition scenarioBEnv [] inactiveVService VirtualServiceActive ConditionFalse
      = ([], inactiveVService, .ok none) ∧
    VirtualServiceStatus.Conditions (VirtualService.Status
      (updateVServiceCondition scenarioBEnv [] inactiveVService RoutesActive ConditionTrue).2.1)
      = [⟨VirtualServiceActive, ConditionFalse, some 5⟩, ⟨RoutesActive, ConditionTrue, some 100⟩] ∧
    UniqueConditionTypes (inactiveVService.Status.Conditions
      ++ [⟨RoutesActive, ConditionTrue, some (scenarioBEnv.Now [])⟩]) :=
  ⟨(updateVServiceCondition_idempotent scenarioBEnv [] inactiveVService VirtualServiceActive
      ConditionFalse).1 ⟨VirtualServiceActive, ConditionFalse, some 5⟩ (by decide) rfl rfl
      (by decide) (by unfold UniqueConditionTypes; decide),
   by
    rw [((updateVServiceCondition_idempotent scenarioBEnv [] inactiveVService RoutesActive
      ConditionTrue).2 (by decide)).1]
    rfl,
   ((updateVServiceCondition_idempotent scenarioBEnv [] inactiveVService RoutesActive
      ConditionTrue).2 (by decide)).2 (by unfold UniqueConditionTypes; decide)⟩

/-! ## The calls of the cleanup when the router is set -/

theorem deleteVServiceResources.routes_calls (env : Env) (vservice : VirtualService)
    (vr : VirtualRouter) (hvr : vservice.Spec.VirtualRouter = some vr)
    (meshName : String) (rs : List Route) (tr : Trace) :
    ∃ evs, (deleteVServiceResources.routes env vservice meshName rs tr).1 = tr ++ evs ∧
      (deleteVServiceResources.routes env vservice meshName rs tr).2 ≠ .fault ∧
      evs.map Event.call <+: rs.map (fun r => Call.DeleteRoute r.Name vr.Name meshName) ∧
      ((deleteVServiceResources.routes env vservice meshName rs tr).2 = .ok () →
        evs.map Event.call = rs.map (fun r => Call.DeleteRoute r.Name vr.Name meshName)) := by
  induction rs generalizing tr with
  | nil => exact ⟨[], by simp [deleteVServiceResources.routes]⟩
  | cons r rs ih =>
    unfold deleteVServiceResources.routes
    rw [hvr]
    dsimp only
    cases hres : env.DeleteRoute tr r.Name vr.Name meshName with
    | error err =>
      dsimp only
      cases hnf : IsAWSErrNotFound err with
      | false =>
        refine ⟨[⟨.DeleteRoute r.Name vr.Name meshName, some err⟩], ?_, ?_, ?_, ?_⟩
        · simp [record, errorOf]
        · simp
        · simp only [Bool.not_false, if_true, List.map_cons, List.map_nil]
          exact ⟨rs.map (fun (r : Route) => Call.DeleteRoute r.Name vr.Name meshName), rfl⟩
        · simp
      | true =>
        obtain ⟨evs, h1, h2, h3, h4⟩ := ih (record tr (.DeleteRoute r.Name vr.Name meshName)
          (Except.error err : Except GoError Unit))
        simp only [Bool.not_true, Bool.false_eq_true, if_false]
        refine ⟨⟨.DeleteRoute r.Name vr.Name meshName, some err⟩ :: evs, ?_, h2, ?_, ?_⟩
        · rw [h1]; simp [record, errorOf]
        · simpa [List.map_cons, List.cons_prefix_cons] using h3
        · intro h; simpa [List.map_cons] using h4 h
    | ok u =>
      dsimp only
      obtain ⟨evs, h1, h2, h3, h4⟩ := ih (record tr (.DeleteRoute r.Name vr.Name meshName)
        (Except.ok u : Except GoError Unit))
      refine ⟨⟨.DeleteRoute r.Name vr.Name meshName, none⟩ :: evs, ?_, h2, ?_, ?_⟩
      · rw [h1]; simp [record, errorOf]
      · simpa [List.map_cons, List.cons_prefix_cons] using h3
      · intro h; simpa [List.map_cons] using h4 h

theorem deleteVServiceResources.router_calls (env : Env) (vservice : VirtualService)
    (vr : VirtualRouter) (hvr : vservice.Spec.VirtualRouter = some vr)
    (meshName : String) (tr : Trace) :
    ∃ eo, (deleteVServiceResources.router env vservice meshName tr).1
        = tr ++ [⟨.DeleteVirtualRouter vr.Name meshName, eo⟩] ∧
      (deleteVServiceResources.router env vservice meshName tr).2 ≠ .fault := by
  unfold deleteVServiceResources.router
  rw [hvr]
  dsimp only
  cases hres : env.DeleteVirtualRouter tr vr.Name meshName with
  | error err =>
    dsimp only
    cases hnf : IsAWSErrNotFound err <;> exact ⟨some err, by simp [record, errorOf]⟩
  | ok u => exact ⟨none, by simp [record, errorOf]⟩

theorem deleteVServiceResources.service_calls (env : Env) (vservice : VirtualService)
    (vr : VirtualRouter) (hvr : vservice.Spec.VirtualRouter = some vr)
    (meshName : String) (tr : Trace) :
    ∃ evs, (deleteVServiceResources.service env vservice meshName tr).1 = tr ++ evs ∧
      (deleteVServiceResources.service env vservice meshName tr).2 ≠ .fault ∧
      evs.map Event.call <+: [Call.DeleteVirtualService vservice.Name meshName,
        Call.DeleteVirtualRouter vr.Name meshName] ∧
      ((deleteVServiceResources.service env vservice meshName tr).2 = .ok () →
        evs.map Event.call = [Call.DeleteVirtualService vservice.Name meshName,
          Call.DeleteVirtualRouter vr.Name meshName]) := by
  unfold deleteVServiceResources.service
  dsimp only
  cases hres : env.DeleteVirtualService tr vservice.Name meshName with
  | error err =>
    dsimp only
    cases hnf : IsAWSErrNotFound err with
    | false =>
      refine ⟨[⟨.DeleteVirtualService vservice.Name meshName, some err⟩], ?_, ?_, ?_, ?_⟩
      · simp [record, errorOf]
      · simp
      · exact ⟨[Call.DeleteVirtualRouter vr.Name meshName], rfl⟩
      · simp
    | true =>
      obtain ⟨eo, h1, h2⟩ := deleteVServiceResources.router_calls env vservice vr hvr meshName
        (record tr (.DeleteVirtualService vservice.Name meshName)
          (Except.error err : Except GoError Unit))
      simp only [Bool.not_true, Bool.false_eq_true, if_false]
      refine ⟨[⟨.DeleteVirtualService vservice.Name meshName, some err⟩,
        ⟨.DeleteVirtualRouter vr.Name meshName, eo⟩], ?_, h2, ?_, ?_⟩
      · rw [h1]; simp [record, errorOf]
      · exact List.prefix_refl _
      · intro _; rfl
  | ok u =>
    dsimp only
    obtain ⟨eo, h1, h2⟩ := deleteVServiceResources.router_calls env vservice vr hvr meshName
      (record tr (.DeleteVirtualService vservice.Name meshName)
        (Except.ok u : Except GoError Unit))
    refine ⟨[⟨.DeleteVirtualService vservice.Name meshName, none⟩,
      ⟨.DeleteVirtualRouter vr.Name meshName, eo⟩], ?_, h2, ?_, ?_⟩
    · rw [h1]; simp [record, errorOf]
    · exact List.prefix_refl _
    · intro _; rfl

/-- With the router set, the cleanup does not fault, its calls are an initial
segment of the cleanup calls, and all of them when it returns success. -/
theorem deleteVServiceResources_calls (env : Env) (tr : Trace) (vservice : VirtualService)
    (vr : VirtualRouter) (hvr : vservice.Spec.VirtualRouter = some vr) :
    ∃ evs, (deleteVServiceResources env tr vservice).1 = tr ++ evs ∧
      (deleteVServiceResources env tr vservice).2 ≠ .fault ∧
      evs.map Event.call <+: cleanupCalls env vservice vr ∧
      ((deleteVServiceResources env tr vservice).2 = .ok () →
        evs.map Event.call = cleanupCalls env vservice vr) := by
  unfold deleteVServiceResources cleanupCalls
  dsimp only
  obtain ⟨evs1, h1, n1, p1, c1⟩ := deleteVServiceResources.routes_calls env vservice vr hvr
    (env.parseMeshName vservice.Spec.MeshName vservice.Namespace).1 vservice.Spec.Routes tr
  generalize deleteVServiceResources.routes env vservice
    (env.parseMeshName vservice.Spec.MeshName vservice.Namespace).1 vservice.Spec.Routes tr
    = p at h1 n1 p1 c1
  obtain ⟨tr1, res1⟩ := p
  dsimp only at h1 n1 p1 c1
  subst h1
  cases res1 with
  | fault => exact absurd rfl n1
  | err e =>
    refine ⟨evs1, rfl, by simp, ?_, by simp⟩
    exact p1.trans (List.prefix_append _ _)
  | ok u =>
    dsimp only
    obtain ⟨evs2, h2, n2, p2, c2⟩ := deleteVServiceResources.service_calls env vservice vr hvr
      (env.parseMeshName vservice.Spec.MeshName vservice.Namespace).1 (tr ++ evs1)
    refine ⟨evs1 ++ evs2, by rw [h2, List.append_assoc], n2, ?_, ?_⟩
    · rw [List.map_append, c1 rfl]
      exact (List.prefix_append_right_inj _).mpr p2
    · intro h
      rw [List.map_append, c1 rfl, c2 h]

/-! ## The reconciler -/

/-- C7, as stated, fails: in Scenario B with the create of `r3` failing, the
Route Differ reports the failure and `handleVService` returns that error right
after the last route operation: the routes are not fetched again, no condition
is upserted and no call is made for the remote virtual service. -/
theorem handleVService_route_failure_counterexample :
    (updateRoutes scenarioBEnv
        [⟨.GetVirtualRouter "router" "mesh", none⟩,
         ⟨.GetRoutesForVirtualRouter "router" "mesh", none⟩]
        "mesh" "router" scenarioBDesired scenarioBExisting).2
      = some (Errorf "error updating routes: r3") ∧
    (handleVService scenarioBEnv [] "vs").1.map Event.call
      = [.GetVirtualRouter "router" "mesh",
         .GetRoutesForVirtualRouter "router" "mesh",
         .CreateRoute (sampleRoute "r3" "/c" (some [⟨"node-c", 100⟩])) "router" "mesh",
         .DeleteRoute "r2" "router" "mesh"] ∧
    (handleVService scenarioBEnv [] "vs").2
      = .err (Errorf "error updating routes for virtual service vs: error updating routes: r3") := by
  refine ⟨?_, ?_, ?_⟩ <;> decide

/-- A pass over a live VirtualService that carries the finalizer, whose Mesh is
live and active and whose remote router exists, reaches the route step with the
object as read (its mesh name parsed) and the one call made so far. -/
theorem handleVService_reaches_routesStep (env : Env) (tr : Trace) (key ns name : String)
    (vservice : VirtualService) (mesh : Mesh) (targetRouter : aws.VirtualRouter)
    (hkey : env.SplitMetaNamespaceKey key = .ok (ns, name))
    (hget : env.virtualServiceLister ns name = .ok vservice)
    (hlive : IsZero vservice.DeletionTimestamp = true)
    (hfin : containsFinalizer vservice env.virtualServiceDeletionFinalizerName = true)
    (hname : vservice.Spec.MeshName ≠ "")
    (hmesh : env.meshLister
      (env.parseMeshName vservice.Spec.MeshName vservice.Namespace).2
      (env.parseMeshName vservice.Spec.MeshName vservice.Namespace).1 = .ok mesh)
    (hmd : IsZero mesh.DeletionTimestamp = true)
    (hact : mesh.Active = true)
    (hrouter : env.GetVirtualRouter tr (getVirtualRouter vservice).Name
      (env.parseMeshName vservice.Spec.MeshName vservice.Namespace).1 = .ok targetRouter) :
    handleVService env tr key
      = handleVService.routesStep env
          (tr ++ [⟨.GetVirtualRouter (getVirtualRouter vservice).Name
            (env.parseMeshName vservice.Spec.MeshName vservice.Namespace).1, none⟩])
          (some { vservice with Spec := { vservice.Spec with
            MeshName := (env.parseMeshName vservice.Spec.MeshName vservice.Namespace).1 } })
          (env.parseMeshName vservice.Spec.MeshName vservice.Namespace).1
          (getVirtualRouter vservice) := by
  unfold handleVService
  rw [hkey]
  dsimp only
  rw [hget]
  dsimp only
  simp only [hlive, hfin, Bool.not_true, Bool.false_eq_true, if_false]
  unfold handleVService.meshStep handleVServiceMeshDeleting
  dsimp only
  rw [hmesh]
  simp only [hmd, Bool.not_true, Bool.false_eq_true, if_false, hname, IsNotFound,
    checkMeshActive, hact]
  unfold handleVService.routerStep
  have hvr : getVirtualRouter { vservice with Spec := { vservice.Spec with
      MeshName := (env.parseMeshName vservice.Spec.MeshName vservice.Namespace).1 } }
      = getVirtualRouter vservice := rfl
  dsimp only
  rw [hvr, hrouter]
  rfl

/-- C7, amended: when the routes were fetched and `updateRoutes` reports an
error, the pass ends there: `handleVService` returns that error, wrapped, and
the history is the one `updateRoutes` left, so no call follows the route
operations. -/
theorem handleVService_routes_error_is_returned_at_once (env : Env) (tr : Trace)
    (vservice : VirtualService) (meshName : String) (virtualRouter : VirtualRouter)
    (existing : aws.Routes) (err : GoError)
    (hget : env.GetRoutesForVirtualRouter tr virtualRouter.Name meshName = .ok existing)
    (herr : (updateRoutes env
        (tr ++ [⟨.GetRoutesForVirtualRouter virtualRouter.Name meshName, none⟩])
        meshName virtualRouter.Name (getRoutes vservice) existing).2 = some err) :
    handleVService.routesStep env tr (some vservice) meshName virtualRouter
      = ((updateRoutes env
            (tr ++ [⟨.GetRoutesForVirtualRouter virtualRouter.Name meshName, none⟩])
            meshName virtualRouter.Name (getRoutes vservice) existing).1,
         .err (Errorf ("error updating routes for virtual service " ++ vservice.Name ++ ": "
            ++ err.Msg))) := by
  unfold handleVService.routesStep
  dsimp only
  rw [hget]
  dsimp only [record, errorOf]
  generalize updateRoutes env
    (tr ++ [⟨.GetRoutesForVirtualRouter virtualRouter.Name meshName, none⟩])
    meshName virtualRouter.Name (getRoutes vservice) existing = p at herr
  obtain ⟨tr2, e2⟩ := p
  dsimp only at herr
  subst herr
  rfl

/-- The amended C7 at Scenario B with the create of `r3` failing. -/
theorem handleVService_routes_error_is_returned_at_once_witness :
    handleVService.routesStep scenarioBEnv [] (some (sampleVService scenarioBDesired)) "mesh"
        ⟨"router"⟩
      = ((updateRoutes scenarioBEnv
            ([] ++ [⟨.GetRoutesForVirtualRouter "router" "mesh", none⟩])
            "mesh" "router" (getRoutes (sampleVService scenarioBDesired)) scenarioBExisting).1,
         .err (Errorf ("error updating routes for virtual service "
            ++ (sampleVService scenarioBDesired).Name ++ ": "
            ++ (Errorf "error updating routes: r3").Msg))) :=
  handleVService_routes_error_is_returned_at_once scenarioBEnv []
    (sampleVService scenarioBDesired) "mesh" ⟨"router"⟩ scenarioBExisting
    (Errorf "error updating routes: r3") rfl (by decide)

/-- C8 fails on the code: for a VirtualService that is not being deleted, whose
`spec.meshName` is empty, the Mesh lookup of the lifecycle gate finds nothing
and `handleVService` returns success without a call; the `MeshName` check that
follows the gate is not reached. -/
theorem handleVService_empty_meshName_returns_success :
    noMeshNameVService.Spec.MeshName = "" ∧
    IsZero noMeshNameVService.DeletionTimestamp = true ∧
    noMeshNameEnv.virtualServiceLister "ns" "vs" = .ok noMeshNameVService ∧
    handleVService noMeshNameEnv [] "vs" = ([], .ok ()) := by
  refine ⟨rfl, rfl, rfl, ?_⟩
  decide

/-- C10 fails on the code: in a pass over a VirtualService without conditions
whose remote router exists and is active, `handleVService` returns success
after upserting `RoutesActive` and `VirtualServiceActive`; no status update
carries a `VirtualRouterActive` condition. -/
theorem handleVService_existing_router_status_not_upserted :
    existingRouterEnv.GetVirtualRouter [] "router" "mesh" = .ok ⟨"router", "ACTIVE"⟩ ∧
    (handleVService existingRouterEnv [] "vs").2 = .ok () ∧
    (handleVService existingRouterEnv [] "vs").1.filterMap Event.persistedConditions
      = [[⟨RoutesActive, ConditionTrue, some 105⟩],
         [⟨RoutesActive, ConditionTrue, some 105⟩,
          ⟨VirtualServiceActive, ConditionTrue, some 107⟩]] := by
  refine ⟨rfl, ?_, ?_⟩ <;> decide

/-- C9, as stated, fails: with the parent Mesh being deleted, a route delete
that fails with an error other than not-found ends the cleanup, so the deletes
for the other route, the virtual service and the virtual router are not issued;
and when the finalizer has to be added and writing the object fails, the pass
returns that error and issues no delete. -/
theorem handleVService_mesh_deleting_counterexample :
    scenarioCEnv.virtualServiceLister "ns" "vs" = .ok (sampleVService scenarioBDesired) ∧
    IsZero (sampleVService scenarioBDesired).DeletionTimestamp = true ∧
    scenarioCEnv.meshLister "ns" "mesh" = .ok deletingMesh ∧
    IsZero deletingMesh.DeletionTimestamp = false ∧
    cleanupCalls scenarioCEnv (sampleVService scenarioBDesired) ⟨"router"⟩
      = [.DeleteRoute "r1" "router" "mesh", .DeleteRoute "r3" "router" "mesh",
         .DeleteVirtualService "vs" "mesh", .DeleteVirtualRouter "router" "mesh"] ∧
    handleVService scenarioCEnv [] "vs"
      = ([⟨.DeleteRoute "r1" "router" "mesh", some ⟨"throttled", false⟩⟩], .ok ()) ∧
    unguardedEnv.meshLister "ns" "mesh" = .ok deletingMesh ∧
    (handleVService unguardedEnv [] "vs").1.map Event.call
      = [.Update (sampleVService scenarioBDesired)] ∧
    (handleVService unguardedEnv [] "vs").2
      = .err (Errorf
          "error adding finalizer virtualServiceDeletion to virtual service vs: conflict") := by
  refine ⟨rfl, rfl, rfl, rfl, ?_, ?_, rfl, ?_, ?_⟩ <;> decide

/-- The gate, for a VirtualService bound to a router whose Mesh is being
deleted: the pass ends with success after the cleanup calls, up to the first
that fails with an error other than not-found. -/
theorem handleVService.meshStep_cascade (env : Env) (tr : Trace) (v : VirtualService)
    (name : String) (mesh : Mesh) (vr : VirtualRouter)
    (hmesh : env.meshLister (env.parseMeshName v.Spec.MeshName v.Namespace).2
      (env.parseMeshName v.Spec.MeshName v.Namespace).1 = .ok mesh)
    (hmd : IsZero mesh.DeletionTimestamp = false)
    (hvr : v.Spec.VirtualRouter = some vr) :
    ∃ evs, handleVService.meshStep env tr v name = (tr ++ evs, .ok ()) ∧
      (∀ ev ∈ evs, ev.call.isCleanup = true) ∧
      evs.map Event.call <+: cleanupCalls env v vr ∧
      ((∀ ev ∈ evs, ev.failed = false) → evs.map Event.call = cleanupCalls env v vr) ∧
      (∀ ev ∈ evs, ev.failed = true → evs.getLast? = some ev) := by
  obtain ⟨evs, h1, o⟩ := deleteVServiceResources_outcome env tr v
  obtain ⟨evs2, h2, nf, pre, comp⟩ := deleteVServiceResources_calls env tr v vr hvr
  have heq : evs2 = evs := List.append_cancel_left (h2.symm.trans h1)
  subst heq
  unfold handleVService.meshStep handleVServiceMeshDeleting
  dsimp only
  rw [hmesh]
  simp only [hmd, Bool.not_false, if_true]
  generalize deleteVServiceResources env tr v = p at h1 o nf comp
  obtain ⟨tr1, res⟩ := p
  dsimp only at h1 o nf comp
  subst h1
  obtain ⟨hcl, hres⟩ := o
  cases res with
  | fault => exact absurd rfl nf
  | ok u =>
    dsimp only at hres ⊢
    refine ⟨evs2, rfl, hcl, pre, fun _ => comp rfl, ?_⟩
    intro ev hev hf
    rw [hres ev hev] at hf; cases hf
  | err e =>
    dsimp only at hres ⊢
    obtain ⟨init, last, err, pfx, hevs, hinit, hlast, hnf, _⟩ := hres
    have hlastf : last.failed = true := by simp [Event.failed, hlast, hnf]
    refine ⟨evs2, rfl, hcl, pre, ?_, ?_⟩
    · intro hall
      have hmem : last ∈ evs2 := by rw [hevs]; simp
      rw [hall last hmem] at hlastf; cases hlastf
    · intro ev hev hf
      have hev2 : ev = last := by
        rw [hevs] at hev
        rcases List.mem_append.mp hev with h | h
        · rw [hinit ev h] at hf; cases hf
        · exact List.mem_singleton.mp h
      rw [hev2, hevs]; simp

/-- C9, amended: for a VirtualService that is not being deleted, whose
`spec.virtualRouter` is set, that carries the finalizer or gets it added and
written successfully, and whose parent Mesh exists with its deletion timestamp
set, `handleVService` returns success; after the write that adds the finalizer
(if any) it makes cleanup calls only, in the order route deletes, virtual
service delete, virtual router delete, up to and including the first that
fails with an error other than not-found, and all of them when none fails so;
the object carries the finalizer and is not written again. -/
theorem handleVService_mesh_deleting (env : Env) (tr : Trace) (key ns name : String)
    (vservice : VirtualService) (mesh : Mesh) (vr : VirtualRouter)
    (hkey : env.SplitMetaNamespaceKey key = .ok (ns, name))
    (hget : env.virtualServiceLister ns name = .ok vservice)
    (hlive : IsZero vservice.DeletionTimestamp = true)
    (hmesh : env.meshLister
      (env.parseMeshName vservice.Spec.MeshName vservice.Namespace).2
      (env.parseMeshName vservice.Spec.MeshName vservice.Namespace).1 = .ok mesh)
    (hmd : IsZero mesh.DeletionTimestamp = false)
    (hvr : vservice.Spec.VirtualRouter = some vr)
    (hupd : containsFinalizer vservice env.virtualServiceDeletionFinalizerName = false →
      errorOf (env.Update tr
        (addFinalizer vservice env.virtualServiceDeletionFinalizerName).1) = none) :
    ∃ evs : List Event,
      handleVService env tr key
        = (tr ++ (if containsFinalizer vservice env.virtualServiceDeletionFinalizerName = true
              then []
              else [⟨.Update (addFinalizer vservice
                env.virtualServiceDeletionFinalizerName).1, none⟩]) ++ evs, .ok ()) ∧
      containsFinalizer (addFinalizer vservice env.virtualServiceDeletionFinalizerName).1
        env.virtualServiceDeletionFinalizerName = true ∧
      (∀ ev ∈ evs, ev.call.isCleanup = true) ∧
      evs.map Event.call <+: cleanupCalls env vservice vr ∧
      ((∀ ev ∈ evs, ev.failed = false) → evs.map Event.call = cleanupCalls env vservice vr) ∧
      (∀ ev ∈ evs, ev.failed = true → evs.getLast? = some ev) := by
  unfold handleVService
  rw [hkey]
  dsimp only
  rw [hget]
  dsimp only
  simp only [hlive, Bool.not_true, Bool.false_eq_true, if_false]
  cases hfin : containsFinalizer vservice env.virtualServiceDeletionFinalizerName with
  | true =>
    simp only [Bool.not_true, Bool.false_eq_true, if_false, if_true, List.append_nil]
    obtain ⟨evs, h⟩ := handleVService.meshStep_cascade env tr vservice name mesh vr hmesh hmd hvr
    refine ⟨evs, h.1, ?_, h.2⟩
    unfold containsFinalizer at hfin ⊢
    simp only [decide_eq_true_eq] at hfin
    simp [addFinalizer, hfin]
  | false =>
    have hnot : env.virtualServiceDeletionFinalizerName ∉ vservice.Finalizers := by
      unfold containsFinalizer at hfin
      simpa using hfin
    have hadd : addFinalizer vservice env.virtualServiceDeletionFinalizerName
        = ({ vservice with Finalizers :=
              vservice.Finalizers ++ [env.virtualServiceDeletionFinalizerName] }, none) := by
      simp [addFinalizer, hnot]
    have hu := hupd hfin
    rw [hadd] at hu ⊢
    simp only [Bool.not_false, if_true, Bool.false_eq_true, if_false]
    unfold updateVServiceResource
    dsimp only at hu ⊢
    rw [hu]
    dsimp only
    obtain ⟨evs, h⟩ := handleVService.meshStep_cascade env
      (record tr (.Update { vservice with Finalizers :=
        vservice.Finalizers ++ [env.virtualServiceDeletionFinalizerName] })
        (env.Update tr { vservice with Finalizers :=
          vservice.Finalizers ++ [env.virtualServiceDeletionFinalizerName] }))
      { vservice with Finalizers :=
        vservice.Finalizers ++ [env.virtualServiceDeletionFinalizerName] }
      name mesh vr hmesh hmd hvr
    refine ⟨evs, ?_, ?_, h.2⟩
    · rw [h.1]
      simp [record, hu]
    · simp [containsFinalizer]

/-- The amended C9 at Scenario C: the VirtualService carries the finalizer, its
router is set and its parent Mesh is being deleted. -/
theorem handleVService_mesh_deleting_witness :
    scenarioCEnv.SplitMetaNamespaceKey "vs" = .ok ("ns", "vs") ∧
    scenarioCEnv.virtualServiceLister "ns" "vs" = .ok (sampleVService scenarioBDesired) ∧
    IsZero (sampleVService scenarioBDesired).DeletionTimestamp = true ∧
    IsZero deletingMesh.DeletionTimestamp = false ∧
    (sampleVService scenarioBDesired).Spec.VirtualRouter = some ⟨"router"⟩ ∧
    ∃ evs : List Event,
      handleVService scenarioCEnv [] "vs"
        = ([] ++ (if containsFinalizer (sampleVService scenarioBDesired)
                scenarioCEnv.virtualServiceDeletionFinalizerName = true
              then []
              else [⟨.Update (addFinalizer (sampleVService scenarioBDesired)
                scenarioCEnv.virtualServiceDeletionFinalizerName).1, none⟩]) ++ evs, .ok ()) ∧
      containsFinalizer (addFinalizer (sampleVService scenarioBDesired)
          scenarioCEnv.virtualServiceDeletionFinalizerName).1
        scenarioCEnv.virtualServiceDeletionFinalizerName = true ∧
      (∀ ev ∈ evs, ev.call.isCleanup = true) ∧
      evs.map Event.call <+: cleanupCalls scenarioCEnv (sampleVService scenarioBDesired)
        ⟨"router"⟩ ∧
      ((∀ ev ∈ evs, ev.failed = false) →
        evs.map Event.call = cleanupCalls scenarioCEnv (sampleVService scenarioBDesired)
          ⟨"router"⟩) ∧
      (∀ ev ∈ evs, ev.failed = true → evs.getLast? = some ev) :=
  ⟨rfl, rfl, rfl, rfl, rfl,
    handleVService_mesh_deleting scenarioCEnv [] "vs" "ns" "vs" (sampleVService scenarioBDesired)
      deletingMesh ⟨"router"⟩ rfl rfl rfl rfl rfl rfl (fun h => absurd h (by decide))⟩

/-! ## Drift of the virtual service -/

/-- C11: `vserviceNeedsUpdate` is true exactly when the desired router name
(`spec.virtualRouter.name`, or the empty string when `spec.virtualRouter` is
unset) differs from the observed router name; an unset router against an empty
observed name is no drift; and the result is the same for any two desired
objects with the same desired router name and any two observed services with
the same router name, so no other field influences it. -/
theorem vserviceNeedsUpdate_iff_router_name_differs (desired : VirtualService)
    (target : aws.VirtualService) :
    (vserviceNeedsUpdate desired target = true ↔
      desiredRouterName desired ≠ target.VirtualRouterName) ∧
    vserviceNeedsUpdate { desired with Spec := { desired.Spec with VirtualRouter := none } }
      ⟨target.Status, ""⟩ = false ∧
    (∀ (desired' : VirtualService) (target' : aws.VirtualService),
      desiredRouterName desired' = desiredRouterName desired →
      target'.VirtualRouterName = target.VirtualRouterName →
      vserviceNeedsUpdate desired' target' = vserviceNeedsUpdate desired target) := by
  have hiff : ∀ (d : VirtualService) (t : aws.VirtualService),
      vserviceNeedsUpdate d t = decide (desiredRouterName d ≠ t.VirtualRouterName) := by
    intro d t
    unfold vserviceNeedsUpdate desiredRouterName
    cases d.Spec.VirtualRouter with
    | none =>
      dsimp only
      by_cases h : t.VirtualRouterName = ""
      · simp [h]
      · have h2 : ¬ "" = t.VirtualRouterName := fun e => h e.symm
        simp [h, h2]
    | some vr =>
      dsimp only
      by_cases h : vr.Name = t.VirtualRouterName <;> simp [h]
  refine ⟨?_, ?_, ?_⟩
  · rw [hiff]; simp
  · rw [hiff]; simp [desiredRouterName]
  · intro d' t' hd ht
    rw [hiff, hiff, hd, ht]

/-- C11 at two VirtualServices that differ in their routes and mesh name but
both name the router `router`, against a remote service bound to `router`. -/
theorem vserviceNeedsUpdate_iff_router_name_differs_witness :
    (vserviceNeedsUpdate (sampleVService scenarioBDesired) ⟨"ACTIVE", "router"⟩ = true ↔
      desiredRouterName (sampleVService scenarioBDesired) ≠ "router") ∧
    vserviceNeedsUpdate noMeshNameVService ⟨"INACTIVE", "router"⟩
      = vserviceNeedsUpdate (sampleVService scenarioBDesired) ⟨"ACTIVE", "router"⟩ :=
  ⟨(vserviceNeedsUpdate_iff_router_name_differs (sampleVService scenarioBDesired)
      ⟨"ACTIVE", "router"⟩).1,
   (vserviceNeedsUpdate_iff_router_name_differs (sampleVService scenarioBDesired)
      ⟨"ACTIVE", "router"⟩).2.2 noMeshNameVService ⟨"INACTIVE", "router"⟩ rfl rfl⟩

/-! ## Cleanup without `spec.virtualRouter` -/

/-- When `spec.virtualRouter` is unset the cleanup never completes: it stops
with a fault, or with the error of the virtual service delete. -/
theorem deleteVServiceResources_unset_router (env : Env) (tr : Trace)
    (vservice : VirtualService) (hvr : vservice.Spec.VirtualRouter = none) :
    (deleteVServiceResources env tr vservice).2 ≠ .ok () ∧
    ∀ ev ∈ (deleteVServiceResources env tr vservice).1.drop tr.length,
      ev.call = .DeleteVirtualService vservice.Name
        (env.parseMeshName vservice.Spec.MeshName vservice.Namespace).1 := by
  unfold deleteVServiceResources
  dsimp only
  cases hrs : vservice.Spec.Routes with
  | cons r rs => simp [deleteVServiceResources.routes, hvr]
  | nil =>
    simp only [deleteVServiceResources.routes, deleteVServiceResources.service,
      deleteVServiceResources.router, hvr]
    cases hres : env.DeleteVirtualService tr vservice.Name
        (env.parseMeshName vservice.Spec.MeshName vservice.Namespace).1 with
    | ok u => simp [record, errorOf]
    | error err =>
      cases hnf : IsAWSErrNotFound err <;> simp [record, errorOf, hnf]

/-- C12 fails on the code: for a VirtualService whose `spec.virtualRouter` is
unset, `getVirtualRouter` yields the router named after the VirtualService, but
`deleteVServiceResources` dereferences the nil pointer: with a declared route it
faults before any call, and with no route it faults after the virtual service
delete, so no delete is addressed to the router `vs`; `handleVServiceDelete`
faults with it and the finalizer stays. -/
theorem deleteVServiceResources_unset_router_faults :
    (routerlessVService scenarioBDesired).Spec.VirtualRouter = none ∧
    getVirtualRouter (routerlessVService scenarioBDesired) = ⟨"vs"⟩ ∧
    deleteVServiceResources (routerlessEnv scenarioBDesired) []
        (routerlessVService scenarioBDesired) = ([], .fault) ∧
    deleteVServiceResources (routerlessEnv []) [] (routerlessVService [])
      = ([⟨.DeleteVirtualService "vs" "mesh", none⟩], .fault) ∧
    handleVServiceDelete (routerlessEnv scenarioBDesired) []
        (routerlessVService scenarioBDesired)
      = ([], routerlessVService scenarioBDesired, .fault) := by
  refine ⟨rfl, rfl, ?_, ?_, ?_⟩ <;> decide

/-! ## The deletion path and the cleanup calls -/

/-- The calls of `handleVServiceDelete` when the deletion finalizer is present:
if the finalizer is removed or the object written, then the router is set and
the calls made are all the cleanup calls, none failed with an error other than
not-found, followed by the one object update; and in every run the cleanup
calls made are an initial segment of the cleanup calls. -/
theorem handleVServiceDelete_cleanup_calls (env : Env) (tr : Trace)
    (vservice : VirtualService)
    (hfin : containsFinalizer vservice env.virtualServiceDeletionFinalizerName = true) :
    ∃ evs : List Event,
      (handleVServiceDelete env tr vservice).1 = tr ++ evs ∧
      ((containsFinalizer (handleVServiceDelete env tr vservice).2.1
            env.virtualServiceDeletionFinalizerName = false ∨
          ∃ ev ∈ evs, ev.call.isUpdate = true) →
        ∃ (vr : VirtualRouter) (cl : List Event) (eo : Option GoError),
          vservice.Spec.VirtualRouter = some vr ∧
          evs = cl ++ [⟨.Update (handleVServiceDelete env tr vservice).2.1, eo⟩] ∧
          cl.map Event.call = cleanupCalls env vservice vr ∧
          ∀ ev ∈ cl, ev.failed = false) ∧
      (∀ vr, vservice.Spec.VirtualRouter = some vr →
        (evs.filter (fun ev => ev.call.isCleanup)).map Event.call
          <+: cleanupCalls env vservice vr) := by
  unfold handleVServiceDelete
  rw [if_pos hfin]
  obtain ⟨evs, h1, o⟩ := deleteVServiceResources_outcome env tr vservice
  have hnone : vservice.Spec.VirtualRouter = none →
      (deleteVServiceResources env tr vservice).2 ≠ .ok () :=
    fun h => (deleteVServiceResources_unset_router env tr vservice h).1
  have hsome : ∀ vr, vservice.Spec.VirtualRouter = some vr →
      ∃ evs2, (deleteVServiceResources env tr vservice).1 = tr ++ evs2 ∧
        evs2.map Event.call <+: cleanupCalls env vservice vr ∧
        ((deleteVServiceResources env tr vservice).2 = .ok () →
          evs2.map Event.call = cleanupCalls env vservice vr) := by
    intro vr hvr
    obtain ⟨evs2, a, _, b, c⟩ := deleteVServiceResources_calls env tr vservice vr hvr
    exact ⟨evs2, a, b, c⟩
  generalize deleteVServiceResources env tr vservice = p at h1 o hnone hsome
  obtain ⟨tr1, res⟩ := p
  dsimp only at h1 o hnone hsome
  subst h1
  obtain ⟨hcl, hres⟩ := o
  have hnoupd : ∀ ev ∈ evs, ev.call.isUpdate = false :=
    fun ev hev => Call.isUpdate_of_isCleanup _ (hcl ev hev)
  have hfilter : evs.filter (fun ev => ev.call.isCleanup) = evs :=
    List.filter_eq_self.mpr hcl
  have hprefix : ∀ vr, vservice.Spec.VirtualRouter = some vr →
      evs.map Event.call <+: cleanupCalls env vservice vr := by
    intro vr hvr
    obtain ⟨evs2, a, b, _⟩ := hsome vr hvr
    have : evs2 = evs := List.append_cancel_left a.symm
    rw [← this]; exact b
  have hstop : ∀ r : Res Unit, (∀ u, r ≠ .ok u) →
      ((containsFinalizer vservice env.virtualServiceDeletionFinalizerName = false ∨
          ∃ ev ∈ evs, ev.call.isUpdate = true) →
        ∃ (vr : VirtualRouter) (cl : List Event) (eo : Option GoError),
          vservice.Spec.VirtualRouter = some vr ∧
          evs = cl ++ [⟨.Update vservice, eo⟩] ∧
          cl.map Event.call = cleanupCalls env vservice vr ∧
          ∀ ev ∈ cl, ev.failed = false) ∧
      (∀ vr, vservice.Spec.VirtualRouter = some vr →
        (evs.filter (fun ev => ev.call.isCleanup)).map Event.call
          <+: cleanupCalls env vservice vr) := by
    intro _ _
    refine ⟨?_, ?_⟩
    · rintro (h | ⟨ev, hev, hu⟩)
      · rw [hfin] at h; cases h
      · rw [hnoupd ev hev] at hu; cases hu
    · intro vr hvr
      rw [hfilter]; exact hprefix vr hvr
  cases res with
  | err e => exact ⟨evs, rfl, hstop (.err e) (by simp)⟩
  | fault => exact ⟨evs, rfl, hstop .fault (by simp)⟩
  | ok u =>
    dsimp only at hres ⊢
    have hshape : removeFinalizer vservice env.virtualServiceDeletionFinalizerName
        = ((removeFinalizer vservice env.virtualServiceDeletionFinalizerName).1, none) := rfl
    rw [hshape]
    dsimp only
    generalize (removeFinalizer vservice env.virtualServiceDeletionFinalizerName).1 = vs1
    unfold updateVServiceResource
    dsimp only
    have key : ∀ eo : Option GoError,
        ((containsFinalizer vs1 env.virtualServiceDeletionFinalizerName = false ∨
            ∃ ev ∈ evs ++ [⟨.Update vs1, eo⟩], ev.call.isUpdate = true) →
          ∃ (vr : VirtualRouter) (cl : List Event) (eo' : Option GoError),
            vservice.Spec.VirtualRouter = some vr ∧
            evs ++ [(⟨.Update vs1, eo⟩ : Event)] = cl ++ [⟨.Update vs1, eo'⟩] ∧
            cl.map Event.call = cleanupCalls env vservice vr ∧
            ∀ ev ∈ cl, ev.failed = false) ∧
        (∀ vr, vservice.Spec.VirtualRouter = some vr →
          ((evs ++ [(⟨.Update vs1, eo⟩ : Event)]).filter
              (fun ev => ev.call.isCleanup)).map Event.call
            <+: cleanupCalls env vservice vr) := by
      intro eo
      refine ⟨?_, ?_⟩
      · intro _
        cases hvr : vservice.Spec.VirtualRouter with
        | none => exact absurd rfl (hnone hvr)
        | some vr =>
          obtain ⟨evs2, a, _, c⟩ := hsome vr hvr
          have heq : evs2 = evs := List.append_cancel_left a.symm
          subst heq
          exact ⟨vr, evs2, eo, rfl, rfl, c rfl, hres⟩
      · intro vr hvr
        rw [List.filter_append, hfilter]
        simp only [List.filter_cons, Call.isCleanup, Bool.false_eq_true, if_false,
          List.filter_nil, List.append_nil]
        exact hprefix vr hvr
    cases hupd : env.Update (tr ++ evs) vs1 with
    | error err =>
      refine ⟨evs ++ [⟨.Update vs1, some err⟩], by simp [record, errorOf], ?_⟩
      exact key (some err)
    | ok v =>
      refine ⟨evs ++ [⟨.Update vs1, none⟩], by simp [record, errorOf], ?_⟩
      exact key none

/-- C4: when the deletion finalizer is present, `handleVServiceDelete` removes it
or writes the object only if every cleanup call was made (each declared route
delete, the virtual service delete, the virtual router delete, in that order,
then the one object update) and none of them failed with an error other than
not-found; if a cleanup call fails so, that error is returned, the call is the
last call made, the object still is the one received (finalizer included) and no
object update is issued; the cleanup calls made are always an initial segment
of the cleanup calls; and when the run does not fault and no cleanup call fails
so, the finalizer is removed and the object is written. -/
theorem handleVServiceDelete_finalizer_guard (env : Env) (tr : Trace)
    (vservice : VirtualService)
    (hfin : containsFinalizer vservice env.virtualServiceDeletionFinalizerName = true) :
    ∃ evs : List Event,
      (handleVServiceDelete env tr vservice).1 = tr ++ evs ∧
      ((containsFinalizer (handleVServiceDelete env tr vservice).2.1
            env.virtualServiceDeletionFinalizerName = false ∨
          ∃ ev ∈ evs, ev.call.isUpdate = true) →
        (∃ (vr : VirtualRouter) (cl : List Event) (eo : Option GoError),
          vservice.Spec.VirtualRouter = some vr ∧
          evs = cl ++ [⟨.Update (handleVServiceDelete env tr vservice).2.1, eo⟩] ∧
          cl.map Event.call = cleanupCalls env vservice vr ∧
          ∀ ev ∈ cl, ev.failed = false) ∧
        ∀ ev ∈ evs, ev.call.isCleanup = true → ev.failed = false) ∧
      (∀ ev ∈ evs, ev.call.isCleanup = true → ev.failed = true →
        (∃ pre err, ev.error = some err ∧
          (handleVServiceDelete env tr vservice).2.2 = .err (Errorf (pre ++ err.Msg))) ∧
        evs.getLast? = some ev ∧
        (handleVServiceDelete env tr vservice).2.1 = vservice ∧
        ∀ ev' ∈ evs, ev'.call.isUpdate = false) ∧
      (∀ vr, vservice.Spec.VirtualRouter = some vr →
        (evs.filter (fun ev => ev.call.isCleanup)).map Event.call
          <+: cleanupCalls env vservice vr) ∧
      ((handleVServiceDelete env tr vservice).2.2 ≠ .fault →
        (∀ ev ∈ evs, ev.call.isCleanup = true → ev.failed = false) →
        containsFinalizer (handleVServiceDelete env tr vservice).2.1
            env.virtualServiceDeletionFinalizerName = false ∧
          ∃ eo, evs.getLast? =
            some ⟨.Update (handleVServiceDelete env tr vservice).2.1, eo⟩) := by
  obtain ⟨evs, a1, a2, a3, a4⟩ := handleVServiceDelete_guard_events env tr vservice hfin
  obtain ⟨evs2, b1, b2, b3⟩ := handleVServiceDelete_cleanup_calls env tr vservice hfin
  have heq : evs2 = evs := List.append_cancel_left (b1.symm.trans a1)
  subst heq
  exact ⟨evs2, a1, fun h => ⟨b2 h, a2 h⟩, a3, b3, a4⟩

/-- C4 at Scenario D: the VirtualService is being deleted, carries the
finalizer, and a route delete fails with an error other than not-found. -/
theorem handleVServiceDelete_finalizer_guard_witness :
    containsFinalizer (deletedVService scenarioBDesired)
        scenarioDEnv.virtualServiceDeletionFinalizerName = true ∧
    ∃ evs : List Event,
      (handleVServiceDelete scenarioDEnv [] (deletedVService scenarioBDesired)).1 = [] ++ evs ∧
      ((containsFinalizer (handleVServiceDelete scenarioDEnv []
              (deletedVService scenarioBDesired)).2.1
            scenarioDEnv.virtualServiceDeletionFinalizerName = false ∨
          ∃ ev ∈ evs, ev.call.isUpdate = true) →
        (∃ (vr : VirtualRouter) (cl : List Event) (eo : Option GoError),
          (deletedVService scenarioBDesired).Spec.VirtualRouter = some vr ∧
          evs = cl ++ [⟨.Update (handleVServiceDelete scenarioDEnv []
              (deletedVService scenarioBDesired)).2.1, eo⟩] ∧
          cl.map Event.call = cleanupCalls scenarioDEnv (deletedVService scenarioBDesired) vr ∧
          ∀ ev ∈ cl, ev.failed = false) ∧
        ∀ ev ∈ evs, ev.call.isCleanup = true → ev.failed = false) ∧
      (∀ ev ∈ evs, ev.call.isCleanup = true → ev.failed = true →
        (∃ pre err, ev.error = some err ∧
          (handleVServiceDelete scenarioDEnv [] (deletedVService scenarioBDesired)).2.2
            = .err (Errorf (pre ++ err.Msg))) ∧
        evs.getLast? = some ev ∧
        (handleVServiceDelete scenarioDEnv [] (deletedVService scenarioBDesired)).2.1
          = deletedVService scenarioBDesired ∧
        ∀ ev' ∈ evs, ev'.call.isUpdate = false) ∧
      (∀ vr, (deletedVService scenarioBDesired).Spec.VirtualRouter = some vr →
        (evs.filter (fun ev => ev.call.isCleanup)).map Event.call
          <+: cleanupCalls scenarioDEnv (deletedVService scenarioBDesired) vr) ∧
      ((handleVServiceDelete scenarioDEnv [] (deletedVService scenarioBDesired)).2.2 ≠ .fault →
        (∀ ev ∈ evs, ev.call.isCleanup = true → ev.failed = false) →
        containsFinalizer (handleVServiceDelete scenarioDEnv []
              (deletedVService scenarioBDesired)).2.1
            scenarioDEnv.virtualServiceDeletionFinalizerName = false ∧
          ∃ eo, evs.getLast? = some ⟨.Update (handleVServiceDelete scenarioDEnv []
              (deletedVService scenarioBDesired)).2.1, eo⟩) :=
  ⟨by decide,
    handleVServiceDelete_finalizer_guard scenarioDEnv [] (deletedVService scenarioBDesired)
      (by decide)⟩

/-- A deletion in which no call fails: the two declared routes, the virtual
service and the virtual router are deleted, then the object is written without
the finalizer. -/
theorem handleVServiceDelete_clean_run :
    (handleVServiceDelete cleanDeletionEnv [] (deletedVService scenarioBDesired)).1
      = [⟨.DeleteRoute "r1" "router" "mesh", none⟩, ⟨.DeleteRoute "r3" "router" "mesh", none⟩,
         ⟨.DeleteVirtualService "vs" "mesh", none⟩, ⟨.DeleteVirtualRouter "router" "mesh", none⟩,
         ⟨.Update { deletedVService scenarioBDesired with Finalizers := [] }, none⟩] ∧
    (handleVServiceDelete cleanDeletionEnv [] (deletedVService scenarioBDesired)).2
      = ({ deletedVService scenarioBDesired with Finalizers := [] }, .ok ()) := by
  constructor <;> decide

end AppMesh
